import Mathlib

/-!
# WinRM plugin: execution engine

A shallow embedding of `internal/winrm/client.go`, `internal/winrm/script.go`
and `main.go`.

Modelling conventions.
* Go strings are modelled by `String` (sequences of Unicode scalar values), so
  only texts that are valid UTF-8 are covered.
* Go `int` is 64 bits wide; the only arithmetic on it that can overflow (the
  loop counter `attempt++` and the duration products in `parseConfig`) is taken
  modulo `2^64` by `wrapInt`.
* Side effects (logger calls, session runs, sleeps, prints, construction of the
  external client) are recorded in order as a list of `Event`s.
* The logger is an injected, non-nil capability; its calls are recorded with the
  format string and the arguments of the call.
* External collaborators (the remote-execution library, `url.Parse`,
  `strings.ToLower`, the file system) are parameters.
-/

namespace WinRM

/-! ## Go standard-library string helpers -/

/-- Go `unicode.IsSpace`: the Unicode White_Space property. -/
def isSpace (c : Char) : Bool :=
  let n := c.toNat
  n == 0x09 || n == 0x0A || n == 0x0B || n == 0x0C || n == 0x0D || n == 0x20 ||
  n == 0x85 || n == 0xA0 || n == 0x1680 || (0x2000 ≤ n && n ≤ 0x200A) ||
  n == 0x2028 || n == 0x2029 || n == 0x202F || n == 0x205F || n == 0x3000

/-- Go `strings.TrimSpace`: drop leading and trailing white space. -/
def TrimSpace (s : String) : String :=
  ⟨((s.data.dropWhile isSpace).reverse.dropWhile isSpace).reverse⟩

/-- Pieces of a character list between occurrences of `sep`. -/
def splitChars (sep : Char) : List Char → List (List Char)
  | [] => [[]]
  | c :: cs =>
    if c = sep then [] :: splitChars sep cs
    else
      match splitChars sep cs with
      | [] => [[c]]
      | p :: ps => (c :: p) :: ps

/-- Go `strings.Split(s, sep)` for a one-character separator. -/
def Split (s : String) (sep : Char) : List String :=
  (splitChars sep s.data).map String.mk

/-- Go `strings.HasPrefix(s, p)`. -/
def startsWith (s p : String) : Bool := p.data.isPrefixOf s.data

/-- Go `strings.HasSuffix(s, p)`. -/
def endsWith (s p : String) : Bool := p.data.isSuffixOf s.data

/-! ## Proxy-bypass matcher (`client.go`) -/

/-- The `for _, entry := range noProxyList` loop of `shouldBypassProxy`. -/
def bypassLoop (host : String) : List String → Bool
  | [] => false
  | raw :: rest =>
    let entry := TrimSpace raw
    if entry = "" then bypassLoop host rest
    else if host = entry then true
    else if startsWith entry "." && endsWith host entry then true
    else if endsWith host ("." ++ entry) then true
    else bypassLoop host rest

/-- Function `shouldBypassProxy` of `client.go`. -/
def shouldBypassProxy (host noProxy : String) : Bool :=
  if noProxy = "" then false
  else bypassLoop host (Split noProxy ',')

/-- The entries of a no-proxy list as the specification describes them: split on
commas, each trimmed of surrounding white space, empty ones skipped. -/
def noProxyEntries (noProxy : String) : List String :=
  ((Split noProxy ',').map TrimSpace).filter (fun e => e ≠ "")

/-- The specification's matching rule of a host against one entry. -/
def entryMatches (host entry : String) : Prop :=
  host = entry ∨
  ((∃ r, entry = "." ++ r) ∧ ∃ p, host = p ++ entry) ∨
  (∃ p, host = p ++ ("." ++ entry))

/-! ## Machine integers, events, data model -/

/-- Two's-complement wrap-around of a Go `int` (64 bits). -/
def wrapInt (x : Int) : Int := (x + 2 ^ 63) % 2 ^ 64 - 2 ^ 63

/-- Largest Go `int`. -/
def maxInt : Int := 2 ^ 63 - 1

/-- Severity of a logger call (`Debug`, `Info`, `Warn`, `Error` and their `f` forms). -/
inductive Level where
  | debug
  | info
  | warn
  | error
  deriving DecidableEq, Repr

/-- An argument passed to a logger call. -/
inductive LogArg where
  | str (s : String)
  | int (i : Int)
  | err (e : String)
  | dur (d : Int)
  deriving DecidableEq, Repr

/-- The arguments `winrm.NewEndpoint(host, port, https, insecure, nil, nil, nil, timeout)`
is called with; `configureProxy` reads `Host` and `HTTPS` back from the endpoint. -/
structure Endpoint where
  Host : String
  Port : Int
  HTTPS : Bool
  Insecure : Bool
  Timeout : Int
  deriving DecidableEq, Repr

/-- Observable side effects, in the order they happen. -/
inductive Event where
  | log (lvl : Level) (format : String) (args : List LogArg)
  | run (command : String) (stdin : String)
  | sleep (d : Int)
  | newWinrmClient (endpoint : Endpoint) (username password : String)
  | printOut (text : String)
  | printErr (text : String)
  deriving DecidableEq, Repr

/-- Struct `Options` of `client.go` (the logger is the injected capability). -/
structure Options where
  Protocol : String := ""
  AuthType : String := ""
  Timeout : Int := 0
  MaxRetries : Int := 0
  RetryInterval : Int := 0
  HTTPProxy : String := ""
  HTTPSProxy : String := ""
  NoProxy : String := ""
  deriving DecidableEq, Repr

/-- Struct `ExecuteOptions` of `client.go`. -/
structure ExecuteOptions where
  WorkingDir : String := ""
  PersistSession : Bool := false
  StreamOutput : Bool := false
  deriving DecidableEq, Repr

/-- Struct `ExecuteResult` of `client.go`. -/
structure ExecuteResult where
  ExitCode : Int
  Stdout : String
  Stderr : String
  deriving DecidableEq, Repr

/-- Struct `Client` of `client.go`: the handle of the external library and the options. -/
structure Client (H : Type) where
  client : H
  opts : Options

/-- What `RunPSWithString` returns: `(stdout, stderr, exitCode, err)`; `err = none` is `nil`. -/
structure RunResult where
  stdout : String
  stderr : String
  exitCode : Int
  err : Option String
  deriving DecidableEq, Repr

/-- The session run operation `c.client.RunPSWithString(command, stdin)` of the external
library, acting on the state `σ` of the remote side. -/
abbrev RunPS (H σ : Type) := H → σ → String → String → RunResult × σ

/-- The variables `stdout, stderr, exitCode, err` the retry loops assign. -/
structure LoopVars where
  stdout : String := ""
  stderr : String := ""
  exitCode : Int := 0
  err : Option String := none
  deriving DecidableEq, Repr

/-- What an execution leaves behind: the returned pair `(*ExecuteResult, error)`, the state
of the remote side and the events. -/
structure Outcome (σ : Type) where
  result : Except String ExecuteResult
  sess : σ
  events : List Event

/-- The commands of the session run calls in a trace, in order. -/
def runCalls : List Event → List (String × String)
  | [] => []
  | Event.run c i :: es => (c, i) :: runCalls es
  | _ :: es => runCalls es

/-- The durations of the `time.Sleep` calls in a trace, in order. -/
def sleepCalls : List Event → List Int
  | [] => []
  | Event.sleep d :: es => d :: sleepCalls es
  | _ :: es => sleepCalls es

/-- The calls of the external client constructor in a trace, in order. -/
def newClientCalls : List Event → List (Endpoint × String × String)
  | [] => []
  | Event.newWinrmClient e u p :: es => (e, u, p) :: newClientCalls es
  | _ :: es => newClientCalls es

/-! ## Retrying executor (`client.go`, `script.go`) -/

/-- The command composition at the head of `ExecuteCommand` and `executeInternal`. -/
def fullCommand (workingDir command : String) : String :=
  if workingDir ≠ "" ∧ workingDir ≠ "C:\\" then "cd '" ++ workingDir ++ "'; " ++ command
  else command

/-- The retry loop of `ExecuteCommand`:
`for attempt := 1; attempt <= c.opts.MaxRetries; attempt++`.
`fuel` bounds the number of iterations; `none` means the bound was hit. -/
def commandLoop {H σ : Type} (runPS : RunPS H σ) (c : Client H) (cmd : String) :
    Nat → Int → LoopVars → σ → Option (LoopVars × σ × List Event)
  | 0, attempt, v, s => if attempt ≤ c.opts.MaxRetries then none else some (v, s, [])
  | fuel + 1, attempt, v, s =>
    if attempt ≤ c.opts.MaxRetries then
      let r := runPS c.client s cmd ""
      let v1 : LoopVars := ⟨r.1.stdout, r.1.stderr, r.1.exitCode, r.1.err⟩
      let pre := [Event.log .debug "Command execution attempt %d/%d"
                    [.int attempt, .int c.opts.MaxRetries],
                  Event.run cmd ""]
      match r.1.err with
      | none => some (v1, r.2, pre)
      | some e =>
        let post := Event.log .warn "Command execution attempt %d failed: %v"
                      [.int attempt, .err e] ::
          (if attempt < c.opts.MaxRetries then
            [Event.log .debug "Retrying in %v" [.dur c.opts.RetryInterval],
             Event.sleep c.opts.RetryInterval]
           else [])
        match commandLoop runPS c cmd fuel (wrapInt (attempt + 1)) v1 r.2 with
        | none => none
        | some (v2, s2, evs) => some (v2, s2, pre ++ post ++ evs)
    else some (v, s, [])

/-- Method `ExecuteCommand` of `client.go`; `opts = none` is the nil pointer. -/
def ExecuteCommand {H σ : Type} (runPS : RunPS H σ) (c : Client H) (command : String)
    (opts : Option ExecuteOptions) (fuel : Nat) (s : σ) : Option (Outcome σ) :=
  let opts := opts.getD {}
  let head := [Event.log .debug "Executing command: %s" [.str command],
               if opts.StreamOutput then Event.log .debug "Using streaming output mode" []
               else Event.log .debug "Using buffered output mode (default)" []]
  let cmd := fullCommand opts.WorkingDir command
  match commandLoop runPS c cmd fuel 1 {} s with
  | none => none
  | some (v, s1, evs) =>
    match v.err with
    | some e =>
      some ⟨.error ("command execution failed after " ++ toString c.opts.MaxRetries ++
              " attempts: " ++ e), s1, head ++ evs⟩
    | none =>
      some ⟨.ok ⟨v.exitCode, v.stdout, v.stderr⟩, s1,
            head ++ evs ++ [Event.log .debug "Command completed with exit code: %d"
                              [.int v.exitCode]]⟩

/-- The retry loop of `executeInternal`. -/
def internalLoop {H σ : Type} (runPS : RunPS H σ) (c : Client H) (opts : ExecuteOptions)
    (cmd : String) : Nat → Int → LoopVars → σ → Option (LoopVars × σ × List Event)
  | 0, attempt, v, s => if attempt ≤ c.opts.MaxRetries then none else some (v, s, [])
  | fuel + 1, attempt, v, s =>
    if attempt ≤ c.opts.MaxRetries then
      let r := runPS c.client s cmd ""
      let v1 : LoopVars := ⟨r.1.stdout, r.1.stderr, r.1.exitCode, r.1.err⟩
      let pre := Event.log .debug "Execution attempt %d/%d"
                    [.int attempt, .int c.opts.MaxRetries] ::
          ((if opts.StreamOutput then
              [Event.log .debug
                "Streaming output not yet fully implemented, using buffered mode" []]
            else []) ++ [Event.run cmd ""])
      match r.1.err with
      | none => some (v1, r.2, pre)
      | some e =>
        let post := Event.log .warn "Execution attempt %d failed: %v"
                      [.int attempt, .err e] ::
          (if attempt < c.opts.MaxRetries then
            [Event.log .debug "Retrying in %v" [.dur c.opts.RetryInterval],
             Event.sleep c.opts.RetryInterval]
           else [])
        match internalLoop runPS c opts cmd fuel (wrapInt (attempt + 1)) v1 r.2 with
        | none => none
        | some (v2, s2, evs) => some (v2, s2, pre ++ post ++ evs)
    else some (v, s, [])

/-- Method `executeInternal` of `script.go`. -/
def executeInternal {H σ : Type} (runPS : RunPS H σ) (c : Client H) (command : String)
    (opts : ExecuteOptions) (fuel : Nat) (s : σ) : Option (Outcome σ) :=
  let cmd := fullCommand opts.WorkingDir command
  match internalLoop runPS c opts cmd fuel 1 {} s with
  | none => none
  | some (v, s1, evs) =>
    match v.err with
    | some e =>
      some ⟨.error ("execution failed after " ++ toString c.opts.MaxRetries ++
              " attempts: " ++ e), s1, evs⟩
    | none =>
      some ⟨.ok ⟨v.exitCode, v.stdout, v.stderr⟩, s1,
            evs ++ [Event.log .debug "Execution completed with exit code: %d"
                      [.int v.exitCode]]⟩

/-! ## The effects of a trace -/

/-- Logger calls, as opposed to effects on the session, the clock and the output. -/
def isLog : Event → Bool
  | Event.log _ _ _ => true
  | _ => false

/-- A trace with the logger calls erased. -/
def effects (evs : List Event) : List Event := evs.filter (fun e => !isLog e)

/-- The retry loop stripped of its logger calls: what both `commandLoop` and `internalLoop`
do to the session and the clock. Used to reason about the two loops at once. -/
def coreLoop {H σ : Type} (runPS : RunPS H σ) (c : Client H) (cmd : String) :
    Nat → Int → LoopVars → σ → Option (LoopVars × σ × List Event)
  | 0, attempt, v, s => if attempt ≤ c.opts.MaxRetries then none else some (v, s, [])
  | fuel + 1, attempt, v, s =>
    if attempt ≤ c.opts.MaxRetries then
      let r := runPS c.client s cmd ""
      let v1 : LoopVars := ⟨r.1.stdout, r.1.stderr, r.1.exitCode, r.1.err⟩
      match r.1.err with
      | none => some (v1, r.2, [Event.run cmd ""])
      | some _ =>
        match coreLoop runPS c cmd fuel (wrapInt (attempt + 1)) v1 r.2 with
        | none => none
        | some (v2, s2, evs) =>
          some (v2, s2, Event.run cmd "" ::
            ((if attempt < c.opts.MaxRetries then [Event.sleep c.opts.RetryInterval] else [])
              ++ evs))
    else some (v, s, [])

/-- Erase the logger calls from the events a loop returns. -/
def eraseLogs {σ : Type} (r : Option (LoopVars × σ × List Event)) :
    Option (LoopVars × σ × List Event) :=
  r.map (fun x => (x.1, x.2.1, effects x.2.2))

/-- The loop variables after a run call returned `r`. -/
def varsOf (r : RunResult) : LoopVars := ⟨r.stdout, r.stderr, r.exitCode, r.err⟩

/-- The effects of `n` failed attempts each followed by the inter-attempt delay. -/
def failedAttempts (cmd : String) (d : Int) : Nat → List Event
  | 0 => []
  | n + 1 => Event.run cmd "" :: Event.sleep d :: failedAttempts cmd d n

/-! ## Script encoder (`script.go`) -/

/-- Go `utf16.Encode` on one rune: one code unit in the basic plane, a surrogate pair
above it, the replacement character for anything that is not a scalar value. -/
def utf16EncodeRune (v : Nat) : List Nat :=
  if v < 0xD800 ∨ (0xE000 ≤ v ∧ v < 0x10000) then [v]
  else if 0x10000 ≤ v ∧ v ≤ 0x10FFFF then
    [0xD800 + (v - 0x10000) / 1024 % 1024, 0xDC00 + (v - 0x10000) % 1024]
  else [0xFFFD]

/-- Go `utf16.Encode`. -/
def utf16Encode : List Nat → List Nat
  | [] => []
  | v :: vs => utf16EncodeRune v ++ utf16Encode vs

/-- The loop `bytes[i*2] = byte(r); bytes[i*2+1] = byte(r >> 8)` of `encodeToBase64`. -/
def unitBytes : List Nat → List Nat
  | [] => []
  | r :: rs => r % 256 :: r / 256 % 256 :: unitBytes rs

/-- The alphabet of `base64.StdEncoding`. -/
def base64Alphabet : List Char :=
  "ABCDEFGHIJKLMNOPQRSTUVWXYZabcdefghijklmnopqrstuvwxyz0123456789+/".toList

/-- The character of a six-bit value. -/
def base64Char (n : Nat) : Char := base64Alphabet.getD n 'A'

/-- Go `base64.StdEncoding.EncodeToString` on a list of bytes: three bytes give four
characters, a shorter last group is padded with `=`. -/
def base64Encode : List Nat → List Char
  | [] => []
  | [a] => [base64Char (a / 4), base64Char (a % 4 * 16), '=', '=']
  | [a, b] =>
    [base64Char (a / 4), base64Char (a % 4 * 16 + b / 16), base64Char (b % 16 * 4), '=']
  | a :: b :: c :: rest =>
    base64Char (a / 4) :: base64Char (a % 4 * 16 + b / 16) ::
      base64Char (b % 16 * 4 + c / 64) :: base64Char (c % 64) :: base64Encode rest

/-- Function `encodeToBase64` of `script.go`; `[]rune(script)` is the list of the code
points of the text. -/
def encodeToBase64 (script : String) : String :=
  ⟨base64Encode (unitBytes (utf16Encode (script.data.map Char.toNat)))⟩

/-! ### The decoders the round trip is stated with -/

/-- The six-bit value of a character of the standard alphabet. -/
def base64Value (c : Char) : Option Nat :=
  let i := base64Alphabet.indexOf c
  if i < 64 then some i else none

/-- Standard padded base64 decoding to a list of bytes. -/
def base64Decode : List Char → Option (List Nat)
  | [] => some []
  | c1 :: c2 :: c3 :: c4 :: rest =>
    match base64Value c1, base64Value c2 with
    | some v1, some v2 =>
      if c3 = '=' then
        if c4 = '=' ∧ rest = [] then some [v1 * 4 + v2 / 16] else none
      else
        match base64Value c3 with
        | none => none
        | some v3 =>
          if c4 = '=' then
            if rest = [] then some [v1 * 4 + v2 / 16, v2 % 16 * 16 + v3 / 4] else none
          else
            match base64Value c4, base64Decode rest with
            | some v4, some bs =>
              some ((v1 * 4 + v2 / 16) :: (v2 % 16 * 16 + v3 / 4) :: (v3 % 4 * 64 + v4) :: bs)
            | _, _ => none
    | _, _ => none
  | _ => none

/-- Read bytes as little-endian 16-bit code units: two bytes per unit, low byte first. -/
def utf16leUnits : List Nat → Option (List Nat)
  | [] => some []
  | lo :: hi :: rest => (utf16leUnits rest).map (fun us => (lo + 256 * hi) :: us)
  | [_] => none

/-- UTF-16 decoding: a high surrogate followed by a low surrogate is one code point above
U+FFFF, an unpaired surrogate is the replacement character. -/
def utf16Decode : List Nat → List Char
  | [] => []
  | [u] => [if 0xD800 ≤ u ∧ u < 0xE000 then Char.ofNat 0xFFFD else Char.ofNat u]
  | u :: l :: rest =>
    if 0xD800 ≤ u ∧ u < 0xDC00 ∧ 0xDC00 ≤ l ∧ l < 0xE000 then
      Char.ofNat (0x10000 + (u - 0xD800) * 1024 + (l - 0xDC00)) :: utf16Decode rest
    else
      (if 0xD800 ≤ u ∧ u < 0xE000 then Char.ofNat 0xFFFD else Char.ofNat u) ::
        utf16Decode (l :: rest)

/-- Decode an encoded command: standard padded base64, then UTF-16 little-endian. -/
def decodeScript (encoded : String) : Option String :=
  match base64Decode encoded.data with
  | none => none
  | some bytes =>
    match utf16leUnits bytes with
    | none => none
    | some units => some ⟨utf16Decode units⟩

/-! ## Script execution (`script.go`) -/

/-- Method `ExecuteScript` of `script.go`; `len(scriptContent)` is the length in bytes. -/
def ExecuteScript {H σ : Type} (runPS : RunPS H σ) (c : Client H) (scriptContent : String)
    (opts : Option ExecuteOptions) (fuel : Nat) (s : σ) : Option (Outcome σ) :=
  let opts := opts.getD {}
  let head := Event.log .debug "Executing script content (%d characters)"
                [.int scriptContent.utf8ByteSize]
  let encodedScript := encodeToBase64 scriptContent
  let command := "powershell.exe -NonInteractive -EncodedCommand " ++ encodedScript
  (executeInternal runPS c command opts fuel s).map
    (fun o => { o with events := head :: o.events })

/-! ## External collaborators -/

/-- What the program takes from outside the repository: `strings.ToLower`, `url.Parse`,
the client constructor `winrm.NewClient(endpoint, username, password)` of the
remote-execution library, and for script files `os.Stat` with `os.IsNotExist`,
`os.ReadFile` and `filepath.Ext`. `H` is the type of client handles, `U` of parsed URLs. -/
structure Lib (H U : Type) where
  ToLower : String → String
  parseURL : String → Except String U
  newClient : Endpoint → String → String → Except String H
  notExist : String → Bool
  readFile : String → Except String String
  Ext : String → String

/-- The field of `http.Transport` that `configureProxy` sets: `none` is a nil `Proxy`. -/
structure Transport (U : Type) where
  Proxy : Option U

/-! ## Session factory (`client.go`) -/

/-- Function `configureProxy` of `client.go`. -/
def configureProxy {H U : Type} (lib : Lib H U) (endpoint : Endpoint) (opts : Options) :
    Except String (Transport U) × List Event :=
  if shouldBypassProxy endpoint.Host opts.NoProxy then
    (.ok ⟨none⟩, [Event.log .debug "Bypassing proxy for host: %s" [.str endpoint.Host]])
  else
    let proxyURL := if endpoint.HTTPS then opts.HTTPSProxy else opts.HTTPProxy
    if proxyURL ≠ "" then
      match lib.parseURL proxyURL with
      | .error err => (.error ("invalid proxy URL: " ++ err), [])
      | .ok parsedURL =>
        (.ok ⟨some parsedURL⟩, [Event.log .debug "Using proxy: %s" [.str proxyURL]])
    else (.ok ⟨none⟩, [])

/-- Function `NewClient` of `client.go`; `opts = none` is the nil pointer. The transport
that `configureProxy` returns is assigned to the blank identifier and not used again. -/
def NewClient {H U : Type} (lib : Lib H U) (host : String) (port : Int)
    (username password : String) (opts : Option Options) :
    Except String (Client H) × List Event :=
  let opts := opts.getD {}
  let endpoint : Endpoint := ⟨host, port, opts.Protocol == "https", false, opts.Timeout⟩
  let proxied : Except String Unit × List Event :=
    if opts.HTTPProxy ≠ "" ∨ opts.HTTPSProxy ≠ "" then
      match configureProxy lib endpoint opts with
      | (.error err, evs) => (.error ("proxy configuration failed: " ++ err), evs)
      | (.ok _, evs) => (.ok (), evs)
    else (.ok (), [])
  match proxied with
  | (.error err, evs) => (.error err, evs)
  | (.ok _, evs) =>
    let authType := lib.ToLower opts.AuthType
    if authType = "ntlm" ∨ authType = "kerberos" then
      match lib.newClient endpoint username password with
      | .error err =>
        (.error ("failed to create WinRM client: " ++ err),
          evs ++ [Event.newWinrmClient endpoint username password])
      | .ok client =>
        (.ok ⟨client, opts⟩, evs ++ [Event.newWinrmClient endpoint username password])
    else (.error ("unsupported auth type: " ++ opts.AuthType), evs)

/-! ## Script files (`script.go`) -/

/-- Method `ExecuteScriptFile` of `script.go`. -/
def ExecuteScriptFile {H U σ : Type} (lib : Lib H U) (runPS : RunPS H σ) (c : Client H)
    (scriptPath : String) (opts : Option ExecuteOptions) (fuel : Nat) (s : σ) :
    Option (Outcome σ) :=
  let opts := opts.getD {}
  let head := [Event.log .debug "Executing script file: %s" [.str scriptPath]]
  if lib.notExist scriptPath then
    some ⟨.error ("script file not found: " ++ scriptPath), s, head⟩
  else
    match lib.readFile scriptPath with
    | .error err => some ⟨.error ("failed to read script file: " ++ err), s, head⟩
    | .ok scriptContent =>
      let ext := lib.ToLower (lib.Ext scriptPath)
      let warn := if ext ≠ ".ps1" then
          [Event.log .warn "Script file '%s' does not have .ps1 extension" [.str scriptPath]]
        else []
      let len := [Event.log .debug "Script content length: %d characters"
                    [.int scriptContent.utf8ByteSize]]
      (ExecuteScript runPS c scriptContent (some opts) fuel s).map
        (fun o => { o with events := head ++ warn ++ len ++ o.events })

/-! ## Configuration and entry point (`main.go`) -/

/-- The value of a run of decimal digits, most significant first. -/
def digitsValue : List Char → Nat → Option Nat
  | [], acc => some acc
  | c :: cs, acc =>
    if '0' ≤ c ∧ c ≤ '9' then digitsValue cs (acc * 10 + (c.toNat - '0'.toNat)) else none

/-- Go `strconv.Atoi` when it returns no error: an optional sign, then one or more decimal
digits, the value within the range of `int`. `none` stands for a non-nil error. -/
def Atoi (s : String) : Option Int :=
  let signed : Bool × List Char :=
    match s.data with
    | '-' :: ds => (true, ds)
    | '+' :: ds => (false, ds)
    | ds => (false, ds)
  match signed.2 with
  | [] => none
  | ds =>
    match digitsValue ds 0 with
    | none => none
    | some n =>
      if signed.1 then (if n ≤ 2 ^ 63 then some (-(n : Int)) else none)
      else (if n < 2 ^ 63 then some (n : Int) else none)

/-- Go `time.Second`, in nanoseconds. -/
def second : Int := 1000000000

/-- Struct `Config` of `main.go`. -/
structure Config where
  Host : String := ""
  Port : Int := 0
  Username : String := ""
  Password : String := ""
  Protocol : String := ""
  AuthType : String := ""
  Timeout : Int := 0
  Command : String := ""
  ScriptPath : String := ""
  ScriptContent : String := ""
  WorkingDir : String := ""
  PersistSession : Bool := false
  StreamOutput : Bool := false
  MaxRetries : Int := 0
  RetryInterval : Int := 0
  LogLevel : String := ""
  LogFormat : String := ""
  Debug : Bool := false
  HTTPProxy : String := ""
  HTTPSProxy : String := ""
  NoProxy : String := ""
  deriving DecidableEq, Repr

/-- Function `parseConfig` of `main.go`; `env` is `os.Getenv` (an unset variable is `""`). -/
def parseConfig (toLower : String → String) (env : String → String) : Except String Config :=
  let config : Config :=
    { Port := 5986, Protocol := "https", AuthType := "ntlm", Timeout := 30 * second,
      MaxRetries := 3, RetryInterval := 5 * second, LogLevel := "info", LogFormat := "text",
      WorkingDir := "C:\\" }
  let config := { config with Host := env "PLUGIN_HOST" }
  if config.Host = "" then .error "PLUGIN_HOST is required" else
  let config := { config with Username := env "PLUGIN_USERNAME" }
  if config.Username = "" then .error "PLUGIN_USERNAME is required" else
  let config := { config with Password := env "PLUGIN_PASSWORD" }
  if config.Password = "" then .error "PLUGIN_PASSWORD is required" else
  let config := { config with
    Command := env "PLUGIN_COMMAND"
    ScriptPath := env "PLUGIN_SCRIPT_PATH"
    ScriptContent := env "PLUGIN_SCRIPT_CONTENT" }
  let config :=
    if env "PLUGIN_PORT" ≠ "" then
      match Atoi (env "PLUGIN_PORT") with
      | some p => { config with Port := p }
      | none => config
    else config
  let config :=
    if env "PLUGIN_PROTOCOL" ≠ "" then { config with Protocol := toLower (env "PLUGIN_PROTOCOL") }
    else config
  let config :=
    if env "PLUGIN_AUTH_TYPE" ≠ "" then
      { config with AuthType := toLower (env "PLUGIN_AUTH_TYPE") }
    else config
  let config :=
    if env "PLUGIN_TIMEOUT" ≠ "" then
      match Atoi (env "PLUGIN_TIMEOUT") with
      | some t => { config with Timeout := wrapInt (t * second) }
      | none => config
    else config
  let config :=
    if env "PLUGIN_WORKING_DIR" ≠ "" then { config with WorkingDir := env "PLUGIN_WORKING_DIR" }
    else config
  let config :=
    if env "PLUGIN_MAX_RETRIES" ≠ "" then
      match Atoi (env "PLUGIN_MAX_RETRIES") with
      | some r => { config with MaxRetries := r }
      | none => config
    else config
  let config :=
    if env "PLUGIN_RETRY_INTERVAL" ≠ "" then
      match Atoi (env "PLUGIN_RETRY_INTERVAL") with
      | some r => { config with RetryInterval := wrapInt (r * second) }
      | none => config
    else config
  let config :=
    if env "PLUGIN_LOG_LEVEL" ≠ "" then { config with LogLevel := toLower (env "PLUGIN_LOG_LEVEL") }
    else config
  let config :=
    if env "PLUGIN_LOG_FORMAT" ≠ "" then
      { config with LogFormat := toLower (env "PLUGIN_LOG_FORMAT") }
    else config
  let config :=
    if env "PLUGIN_DEBUG_MODE" = "true" then { config with Debug := true, LogLevel := "debug" }
    else config
  let config :=
    if env "PLUGIN_PERSIST_SESSION" = "true" then { config with PersistSession := true }
    else config
  let config :=
    if env "PLUGIN_STREAM_OUTPUT" = "true" then { config with StreamOutput := true }
    else config
  let config := { config with
    HTTPProxy := env "HTTP_PROXY"
    HTTPSProxy := env "HTTPS_PROXY"
    NoProxy := env "NO_PROXY" }
  .ok config

/-- How the process ends: the exit code (0 when `main` returns), the state of the remote
side and the events. -/
structure Exit (σ : Type) where
  code : Int
  sess : σ
  events : List Event

/-- Function `main` of `main.go`. `none` means the retry loop hit the bound `fuel`. -/
def main {H U σ : Type} (lib : Lib H U) (runPS : RunPS H σ) (env : String → String)
    (fuel : Nat) (s : σ) : Option (Exit σ) :=
  match parseConfig lib.ToLower env with
  | .error err => some ⟨1, s, [Event.printErr ("Configuration error: " ++ err ++ "\n")]⟩
  | .ok config =>
    let start := [Event.log .info "Starting WinRM Plugin" [],
                  Event.log .debug "Configuration: Host=%s, Port=%d, Protocol=%s, AuthType=%s"
                    [.str config.Host, .int config.Port, .str config.Protocol,
                     .str config.AuthType]]
    let created := NewClient lib config.Host config.Port config.Username config.Password
      (some { Protocol := config.Protocol, AuthType := config.AuthType,
              Timeout := config.Timeout, MaxRetries := config.MaxRetries,
              RetryInterval := config.RetryInterval, HTTPProxy := config.HTTPProxy,
              HTTPSProxy := config.HTTPSProxy, NoProxy := config.NoProxy })
    match created.1 with
    | .error err =>
      some ⟨1, s, start ++ created.2 ++
        [Event.log .error "Failed to create WinRM client: %v" [.err err]]⟩
    | .ok client =>
      let execOptions : ExecuteOptions :=
        { WorkingDir := config.WorkingDir, PersistSession := config.PersistSession,
          StreamOutput := config.StreamOutput }
      let executed : Option (Outcome σ) ⊕ List Event :=
        if config.Command ≠ "" then
          .inl ((ExecuteCommand runPS client config.Command (some execOptions) fuel s).map
            (fun o => { o with events :=
              (Event.log .debug "Executing command: %s" [.str config.Command]) :: o.events }))
        else if config.ScriptPath ≠ "" then
          .inl ((ExecuteScriptFile lib runPS client config.ScriptPath (some execOptions)
              fuel s).map
            (fun o => { o with events :=
              (Event.log .debug "Executing script file: %s" [.str config.ScriptPath]) ::
                o.events }))
        else if config.ScriptContent ≠ "" then
          .inl ((ExecuteScript runPS client config.ScriptContent (some execOptions) fuel s).map
            (fun o => { o with events :=
              (Event.log .debug "Executing script content" []) :: o.events }))
        else
          .inr [Event.log .error "No command, script file, or script content specified" [],
                Event.log .info
                  "Use PLUGIN_COMMAND, PLUGIN_SCRIPT_PATH, or PLUGIN_SCRIPT_CONTENT" []]
      match executed with
      | .inr evs => some ⟨1, s, start ++ created.2 ++ evs⟩
      | .inl none => none
      | .inl (some o) =>
        match o.result with
        | .error err =>
          some ⟨1, o.sess, start ++ created.2 ++ o.events ++
            [Event.log .error "Execution failed: %v" [.err err]]⟩
        | .ok result =>
          let report :=
            [Event.log .info "Execution completed successfully. Exit code: %d"
              [.int result.ExitCode]] ++
            (if result.Stdout ≠ "" then
              [Event.log .info "STDOUT:" [], Event.printOut result.Stdout] else []) ++
            (if result.Stderr ≠ "" then
              [Event.log .warn "STDERR:" [], Event.printOut result.Stderr] else [])
          if result.ExitCode ≠ 0 then
            some ⟨result.ExitCode, o.sess, start ++ created.2 ++ o.events ++ report⟩
          else
            some ⟨0, o.sess, start ++ created.2 ++ o.events ++ report ++
              [Event.log .info "WinRM Plugin completed successfully" []]⟩

/-! ## Stub collaborators for concrete runs -/

/-- ASCII lower-casing, which is what `strings.ToLower` does on ASCII text. -/
def asciiLower (s : String) : String := ⟨s.data.map Char.toLower⟩

/-- A stub library: `url.Parse` rejects a text that starts with a colon ("missing protocol
scheme") and accepts the rest, the client constructor succeeds and hands back its own
arguments as the handle, and there are no script files. -/
def stubLib : Lib (Endpoint × String × String) String where
  ToLower := asciiLower
  parseURL := fun raw =>
    if startsWith raw ":" then .error ("parse \"" ++ raw ++ "\": missing protocol scheme")
    else .ok raw
  newClient := fun e u p => .ok (e, u, p)
  notExist := fun _ => true
  readFile := fun _ => .error "no such file"
  Ext := fun _ => ""

/-- An environment given as a list of `(variable, value)` pairs. -/
def envOf (vars : List (String × String)) (name : String) : String :=
  match vars.find? (fun kv => kv.1 == name) with
  | some kv => kv.2
  | none => ""

/-- The pair `(*ExecuteResult, error)` that `ExecuteCommand` and `executeInternal` build
from the loop variables; `failedText` is the head of the error message. -/
def resultOf (failedText : String) (maxRetries : Int) (v : LoopVars) :
    Except String ExecuteResult :=
  match v.err with
  | some e => .error (failedText ++ toString maxRetries ++ " attempts: " ++ e)
  | none => .ok ⟨v.exitCode, v.stdout, v.stderr⟩

/-! ## Session stubs -/

/-- State of the remote side after `n` run calls with the same command. -/
def stateAfter {H σ : Type} (runPS : RunPS H σ) (h : H) (cmd : String) (s : σ) : Nat → σ
  | 0 => s
  | n + 1 => (runPS h (stateAfter runPS h cmd s n) cmd "").2

/-- What run call number `n + 1` with the same command returns. -/
def callResult {H σ : Type} (runPS : RunPS H σ) (h : H) (cmd : String) (s : σ) (n : Nat) :
    RunResult :=
  (runPS h (stateAfter runPS h cmd s n) cmd "").1

/-- A stub session that answers its calls from a list, then keeps failing. -/
def scriptedRun {H : Type} : RunPS H (List RunResult)
  | _, [], _, _ => (⟨"", "", 1, some "connection refused"⟩, [])
  | _, r :: rs, _, _ => (r, rs)

/-- A stub session every run call of which fails. -/
def failingRun {H : Type} : RunPS H Unit :=
  fun _ _ _ _ => (⟨"", "", 1, some "connection refused"⟩, ())

/-- A client over the unit handle with the given retry bound and a 5 s delay. -/
def stubClient (maxRetries : Int) : Client Unit :=
  ⟨(), { MaxRetries := maxRetries, RetryInterval := 5 * second }⟩

/-- What an outcome shows apart from logger calls: the returned pair, the state of the
remote side, and the run calls and sleeps in order. -/
def Outcome.view {σ : Type} (o : Outcome σ) : Except String ExecuteResult × σ × List Event :=
  (o.result, o.sess, effects o.events)

/-- The run calls of an execution, none if it did not return within the bound. -/
def outcomeRunCalls {σ : Type} (r : Option (Outcome σ)) : List (String × String) :=
  match r with
  | none => []
  | some o => runCalls o.events

/-- The error of a returned pair, if any. -/
def errorOf {α : Type} : Except String α → Option String
  | .error e => some e
  | .ok _ => none

/-- The handle of the external client inside the client that `NewClient` returned, if any. -/
def handleOf {H : Type} : Except String (Client H) → Option H
  | .error _ => none
  | .ok c => some c.client

/-- The options `main` passes to `NewClient`. -/
def clientOptions (config : Config) : Options :=
  { Protocol := config.Protocol, AuthType := config.AuthType, Timeout := config.Timeout,
    MaxRetries := config.MaxRetries, RetryInterval := config.RetryInterval,
    HTTPProxy := config.HTTPProxy, HTTPSProxy := config.HTTPSProxy, NoProxy := config.NoProxy }

/-- The two logger calls of `main` between `parseConfig` and `NewClient`. -/
def startEvents (config : Config) : List Event :=
  [Event.log .info "Starting WinRM Plugin" [],
   Event.log .debug "Configuration: Host=%s, Port=%d, Protocol=%s, AuthType=%s"
     [.str config.Host, .int config.Port, .str config.Protocol, .str config.AuthType]]

/-- What `main` logs after `NewClient` has returned when there is no payload to run: the
failure of `NewClient`, or else the missing payload. -/
def noPayloadEvents {H : Type} (created : Except String (Client H)) : List Event :=
  match created with
  | .error err => [Event.log .error "Failed to create WinRM client: %v" [.err err]]
  | .ok _ =>
    [Event.log .error "No command, script file, or script content specified" [],
     Event.log .info "Use PLUGIN_COMMAND, PLUGIN_SCRIPT_PATH, or PLUGIN_SCRIPT_CONTENT" []]

/-! ## Lemmas on the string helpers -/

theorem endsWith_iff (s p : String) : endsWith s p = true ↔ ∃ q, s = q ++ p := by
  unfold endsWith
  rw [List.isSuffixOf_iff_suffix]
  constructor
  · rintro ⟨t, ht⟩
    exact ⟨⟨t⟩, String.ext (by simp [ht])⟩
  · rintro ⟨q, rfl⟩
    exact ⟨q.data, by simp⟩

theorem startsWith_iff (s p : String) : startsWith s p = true ↔ ∃ r, s = p ++ r := by
  unfold startsWith
  rw [List.isPrefixOf_iff_prefix]
  constructor
  · rintro ⟨t, ht⟩
    exact ⟨⟨t⟩, String.ext (by simp [ht])⟩
  · rintro ⟨r, rfl⟩
    exact ⟨r.data, by simp⟩

theorem splitChars_ne_nil (sep : Char) (l : List Char) : splitChars sep l ≠ [] := by
  induction l with
  | nil => simp [splitChars]
  | cons c cs ih =>
    unfold splitChars
    split
    · simp
    · split <;> simp

/-- Joining the pieces with the separator gives the text back. -/
theorem splitChars_intercalate (sep : Char) (l : List Char) :
    List.intercalate [sep] (splitChars sep l) = l := by
  induction l with
  | nil => simp [splitChars, List.intercalate]
  | cons c cs ih =>
    unfold splitChars
    by_cases h : c = sep
    · simp only [h, if_true]
      cases hs : splitChars sep cs with
      | nil => exact absurd hs (splitChars_ne_nil sep cs)
      | cons p ps =>
        rw [hs] at ih
        cases ps with
        | nil => simpa [List.intercalate] using ih
        | cons q qs => simpa [List.intercalate] using ih
    · simp only [h, if_false]
      cases hs : splitChars sep cs with
      | nil => exact absurd hs (splitChars_ne_nil sep cs)
      | cons p ps =>
        rw [hs] at ih
        cases ps with
        | nil => simpa [List.intercalate] using ih
        | cons q qs => simpa [List.intercalate] using ih

/-- No piece contains the separator. -/
theorem splitChars_no_sep (sep : Char) (l : List Char) :
    ∀ p ∈ splitChars sep l, sep ∉ p := by
  induction l with
  | nil => simp [splitChars]
  | cons c cs ih =>
    unfold splitChars
    by_cases h : c = sep
    · simp only [h, if_true]
      intro p hp
      rcases List.mem_cons.mp hp with rfl | hp
      · simp
      · exact ih p hp
    · simp only [h, if_false]
      cases hs : splitChars sep cs with
      | nil => exact absurd hs (splitChars_ne_nil sep cs)
      | cons q qs =>
        rw [hs] at ih
        intro p hp
        rcases List.mem_cons.mp hp with rfl | hp
        · intro hmem
          rcases List.mem_cons.mp hmem with h1 | h1
          · exact h h1.symm
          · exact ih q (List.mem_cons_self _ _) h1
        · exact ih p (List.mem_cons_of_mem _ hp)

theorem bypassLoop_iff (host : String) (l : List String) :
    bypassLoop host l = true ↔
      ∃ e ∈ (l.map TrimSpace).filter (fun e => e ≠ ""), entryMatches host e := by
  induction l with
  | nil => simp [bypassLoop]
  | cons raw rest ih =>
    unfold bypassLoop
    by_cases h0 : TrimSpace raw = ""
    · simp [h0, ih]
    · simp only [h0, if_false, List.map_cons]
      rw [List.filter_cons_of_pos (by simpa using h0)]
      simp only [List.exists_mem_cons_iff] at *
      by_cases h1 : host = TrimSpace raw
      · simp [h1, entryMatches]
      · by_cases h2 : (startsWith (TrimSpace raw) "." && endsWith host (TrimSpace raw)) = true
        · simp only [h1, h2, if_true, if_false, true_iff]
          rw [Bool.and_eq_true, startsWith_iff, endsWith_iff] at h2
          exact Or.inl (Or.inr (Or.inl h2))
        · by_cases h3 : endsWith host ("." ++ TrimSpace raw) = true
          · rw [if_neg h1, if_neg h2, if_pos h3]
            rw [endsWith_iff] at h3
            exact ⟨fun _ => Or.inl (Or.inr (Or.inr h3)), fun _ => rfl⟩
          · rw [if_neg h1, if_neg h2, if_neg h3, ih]
            rw [Bool.and_eq_true, startsWith_iff, endsWith_iff] at h2
            rw [endsWith_iff] at h3
            constructor
            · exact Or.inr
            · rintro (hm | hm)
              · rcases hm with hm | hm | hm
                · exact absurd hm h1
                · exact absurd hm h2
                · exact absurd hm h3
              · exact hm

/-- C4: `shouldBypassProxy host noProxy` is true exactly when the host matches
one of the comma-separated, whitespace-trimmed, non-empty entries of the list
(equal to it, ending with it when it starts with a dot, or ending with a dot
followed by it); on the empty list it is false. -/
theorem shouldBypassProxy_iff (host noProxy : String) :
    (shouldBypassProxy host noProxy = true ↔
      ∃ e ∈ noProxyEntries noProxy, entryMatches host e) ∧
    shouldBypassProxy host "" = false := by
  refine ⟨?_, by simp [shouldBypassProxy]⟩
  unfold shouldBypassProxy noProxyEntries
  by_cases h : noProxy = ""
  · subst h
    simp only [if_true]
    constructor
    · intro h; cases h
    · rintro ⟨e, he, _⟩
      revert he
      simp [Split, splitChars, TrimSpace]
  · simp only [h, if_false]
    exact bypassLoop_iff host _

/-- Empty entries are skipped, so a list of commas matches no host, not even one that ends
with a dot; the same host matches once the list has an entry for it. -/
theorem shouldBypassProxy_skips_empty_entries :
    shouldBypassProxy "host." "," = false ∧ shouldBypassProxy "host." " , " = false ∧
    shouldBypassProxy "a.example.com" "localhost, example.com" = true ∧
    shouldBypassProxy "a.example.com" " .example.com ,x" = true ∧
    shouldBypassProxy "example.com" ".example.com" = false := by
  decide

/-! ## The retry loops -/

theorem effects_append (a b : List Event) : effects (a ++ b) = effects a ++ effects b := by
  simp [effects]

theorem runCalls_effects (evs : List Event) : runCalls (effects evs) = runCalls evs := by
  induction evs with
  | nil => rfl
  | cons e es ih =>
    cases e <;> simp [effects, runCalls, isLog] at * <;> exact ih

theorem sleepCalls_effects (evs : List Event) : sleepCalls (effects evs) = sleepCalls evs := by
  induction evs with
  | nil => rfl
  | cons e es ih =>
    cases e <;> simp [effects, sleepCalls, isLog] at * <;> exact ih

theorem runCalls_append (a b : List Event) : runCalls (a ++ b) = runCalls a ++ runCalls b := by
  induction a with
  | nil => rfl
  | cons e es ih => cases e <;> simp [runCalls, ih]

theorem sleepCalls_append (a b : List Event) :
    sleepCalls (a ++ b) = sleepCalls a ++ sleepCalls b := by
  induction a with
  | nil => rfl
  | cons e es ih => cases e <;> simp [sleepCalls, ih]

/-- Erasing the logger calls of `commandLoop` leaves `coreLoop`. -/
theorem commandLoop_core {H σ : Type} (runPS : RunPS H σ) (c : Client H) (cmd : String)
    (fuel : Nat) (a : Int) (v : LoopVars) (s : σ) :
    eraseLogs (commandLoop runPS c cmd fuel a v s) = coreLoop runPS c cmd fuel a v s := by
  induction fuel generalizing a v s with
  | zero =>
    unfold commandLoop coreLoop
    split <;> simp [eraseLogs, effects]
  | succ n ih =>
    unfold commandLoop coreLoop
    by_cases h : a ≤ c.opts.MaxRetries
    · simp only [h, if_true]
      cases he : (runPS c.client s cmd "").1.err with
      | none => simp [eraseLogs, effects, isLog]
      | some e =>
        simp only []
        rw [← ih]
        cases commandLoop runPS c cmd n (wrapInt (a + 1))
            ⟨(runPS c.client s cmd "").1.stdout, (runPS c.client s cmd "").1.stderr,
              (runPS c.client s cmd "").1.exitCode, some e⟩ (runPS c.client s cmd "").2 with
        | none => simp [eraseLogs]
        | some x =>
          by_cases h2 : a < c.opts.MaxRetries <;>
            simp [eraseLogs, effects, isLog, h2]
    · simp [h, eraseLogs, effects]

/-- Erasing the logger calls of `internalLoop` leaves `coreLoop`, whatever the options. -/
theorem internalLoop_core {H σ : Type} (runPS : RunPS H σ) (c : Client H)
    (opts : ExecuteOptions) (cmd : String) (fuel : Nat) (a : Int) (v : LoopVars) (s : σ) :
    eraseLogs (internalLoop runPS c opts cmd fuel a v s) = coreLoop runPS c cmd fuel a v s := by
  induction fuel generalizing a v s with
  | zero =>
    unfold internalLoop coreLoop
    split <;> simp [eraseLogs, effects]
  | succ n ih =>
    unfold internalLoop coreLoop
    by_cases h : a ≤ c.opts.MaxRetries
    · simp only [h, if_true]
      cases he : (runPS c.client s cmd "").1.err with
      | none => cases opts.StreamOutput <;> simp [eraseLogs, effects, isLog]
      | some e =>
        simp only []
        rw [← ih]
        cases internalLoop runPS c opts cmd n (wrapInt (a + 1))
            ⟨(runPS c.client s cmd "").1.stdout, (runPS c.client s cmd "").1.stderr,
              (runPS c.client s cmd "").1.exitCode, some e⟩ (runPS c.client s cmd "").2 with
        | none => simp [eraseLogs]
        | some x =>
          by_cases h2 : a < c.opts.MaxRetries <;> cases opts.StreamOutput <;>
            simp [eraseLogs, effects, isLog, h2]
    · simp [h, eraseLogs, effects]

theorem wrapInt_of_range (x : Int) (h1 : -2 ^ 63 ≤ x) (h2 : x ≤ maxInt) : wrapInt x = x := by
  unfold wrapInt maxInt at *
  omega

theorem wrapInt_le_maxInt (x : Int) : wrapInt x ≤ maxInt := by
  unfold wrapInt maxInt
  omega

theorem stateAfter_succ {H σ : Type} (runPS : RunPS H σ) (h : H) (cmd : String) (s : σ)
    (n : Nat) :
    stateAfter runPS h cmd s (n + 1) = stateAfter runPS h cmd (runPS h s cmd "").2 n := by
  induction n with
  | zero => rfl
  | succ m ih =>
    show (runPS h (stateAfter runPS h cmd s (m + 1)) cmd "").2 = _
    rw [ih]
    rfl

theorem callResult_succ {H σ : Type} (runPS : RunPS H σ) (h : H) (cmd : String) (s : σ)
    (n : Nat) :
    callResult runPS h cmd s (n + 1) = callResult runPS h cmd (runPS h s cmd "").2 n := by
  unfold callResult
  rw [stateAfter_succ]

theorem runCalls_failedAttempts (cmd : String) (d : Int) (n : Nat) :
    runCalls (failedAttempts cmd d n) = List.replicate n (cmd, "") := by
  induction n with
  | zero => rfl
  | succ m ih => simp [failedAttempts, runCalls, ih, List.replicate_succ]

theorem sleepCalls_failedAttempts (cmd : String) (d : Int) (n : Nat) :
    sleepCalls (failedAttempts cmd d n) = List.replicate n d := by
  induction n with
  | zero => rfl
  | succ m ih => simp [failedAttempts, sleepCalls, ih, List.replicate_succ]

/-- Past the bound the loop body is not entered. -/
theorem coreLoop_past {H σ : Type} (runPS : RunPS H σ) (c : Client H) (cmd : String)
    (fuel : Nat) (a : Int) (v : LoopVars) (s : σ) (h : c.opts.MaxRetries < a) :
    coreLoop runPS c cmd fuel a v s = some (v, s, []) := by
  have h2 : ¬ a ≤ c.opts.MaxRetries := by omega
  cases fuel <;> simp [coreLoop, h2]

theorem coreLoop_step_ok {H σ : Type} (runPS : RunPS H σ) (c : Client H) (cmd : String)
    (f : Nat) (a : Int) (v : LoopVars) (s : σ) (ha : a ≤ c.opts.MaxRetries)
    (hok : (runPS c.client s cmd "").1.err = none) :
    coreLoop runPS c cmd (f + 1) a v s =
      some (varsOf (runPS c.client s cmd "").1, (runPS c.client s cmd "").2,
            [Event.run cmd ""]) := by
  unfold coreLoop
  simp only [ha, if_true, varsOf]
  rcases hr : runPS c.client s cmd "" with ⟨⟨so, se, ec, er⟩, s1⟩
  rw [hr] at hok
  simp only at hok
  subst hok
  rfl

theorem coreLoop_step_fail {H σ : Type} (runPS : RunPS H σ) (c : Client H) (cmd : String)
    (f : Nat) (a : Int) (v : LoopVars) (s : σ) (ha : a ≤ c.opts.MaxRetries)
    (hfail : (runPS c.client s cmd "").1.err ≠ none) :
    coreLoop runPS c cmd (f + 1) a v s =
      (coreLoop runPS c cmd f (wrapInt (a + 1)) (varsOf (runPS c.client s cmd "").1)
          (runPS c.client s cmd "").2).map
        (fun x => (x.1, x.2.1, Event.run cmd "" ::
          ((if a < c.opts.MaxRetries then [Event.sleep c.opts.RetryInterval] else [])
            ++ x.2.2))) := by
  conv_lhs => unfold coreLoop
  simp only [ha, if_true, varsOf]
  rcases hr : runPS c.client s cmd "" with ⟨⟨so, se, ec, er⟩, s1⟩
  rw [hr] at hfail
  simp only at hfail
  obtain ⟨e, rfl⟩ := Option.ne_none_iff_exists.mp hfail
  simp only
  cases coreLoop runPS c cmd f (wrapInt (a + 1)) ⟨so, se, ec, some e⟩ s1 with
  | none => rfl
  | some x => rfl

/-- The loop when the first `n` calls fail and call `n + 1` succeeds within the bound. -/
theorem coreLoop_success {H σ : Type} (runPS : RunPS H σ) (c : Client H) (cmd : String)
    (n : Nat) : ∀ (fuel : Nat) (a : Int) (v : LoopVars) (s : σ),
    n < fuel → -2 ^ 63 ≤ a → a + n ≤ c.opts.MaxRetries → c.opts.MaxRetries ≤ maxInt →
    (∀ i, i < n → (callResult runPS c.client cmd s i).err ≠ none) →
    (callResult runPS c.client cmd s n).err = none →
    coreLoop runPS c cmd fuel a v s =
      some (varsOf (callResult runPS c.client cmd s n), stateAfter runPS c.client cmd s (n + 1),
            failedAttempts cmd c.opts.RetryInterval n ++ [Event.run cmd ""]) := by
  induction n with
  | zero =>
    intro fuel a v s hf _ ha _ _ hok
    obtain ⟨f, rfl⟩ : ∃ f, fuel = f + 1 := ⟨fuel - 1, by omega⟩
    rw [coreLoop_step_ok runPS c cmd f a v s (by omega) hok]
    rfl
  | succ m ih =>
    intro fuel a v s hf hlo ha hmax hfail hok
    obtain ⟨f, rfl⟩ : ∃ f, fuel = f + 1 := ⟨fuel - 1, by omega⟩
    have ha3 : a < c.opts.MaxRetries := by omega
    have hw : wrapInt (a + 1) = a + 1 := wrapInt_of_range _ (by omega) (by omega)
    have hrec := ih f (a + 1) (varsOf (runPS c.client s cmd "").1) (runPS c.client s cmd "").2
      (by omega) (by omega) (by push_cast at ha; omega) hmax
      (fun i hi => by rw [← callResult_succ]; exact hfail (i + 1) (by omega))
      (by rw [← callResult_succ]; exact hok)
    rw [coreLoop_step_fail runPS c cmd f a v s (by omega) (hfail 0 (by omega)), hw, hrec]
    simp only [Option.map_some', ha3, if_true]
    rw [← callResult_succ, ← stateAfter_succ]
    rfl

/-- The loop when every call up to the bound fails: `n + 1` attempts remain. -/
theorem coreLoop_exhaust {H σ : Type} (runPS : RunPS H σ) (c : Client H) (cmd : String)
    (n : Nat) : ∀ (fuel : Nat) (a : Int) (v : LoopVars) (s : σ),
    n < fuel → -2 ^ 63 ≤ a → a + n = c.opts.MaxRetries → c.opts.MaxRetries < maxInt →
    (∀ i, i ≤ n → (callResult runPS c.client cmd s i).err ≠ none) →
    coreLoop runPS c cmd fuel a v s =
      some (varsOf (callResult runPS c.client cmd s n), stateAfter runPS c.client cmd s (n + 1),
            failedAttempts cmd c.opts.RetryInterval n ++ [Event.run cmd ""]) := by
  induction n with
  | zero =>
    intro fuel a v s hf hlo ha hmax hfail
    obtain ⟨f, rfl⟩ : ∃ f, fuel = f + 1 := ⟨fuel - 1, by omega⟩
    have ha3 : ¬ a < c.opts.MaxRetries := by omega
    have hw : wrapInt (a + 1) = a + 1 := wrapInt_of_range _ (by omega) (by omega)
    rw [coreLoop_step_fail runPS c cmd f a v s (by omega) (hfail 0 (by omega)), hw,
      coreLoop_past runPS c cmd f (a + 1) _ _ (by omega)]
    simp only [Option.map_some', ha3, if_false]
    rfl
  | succ m ih =>
    intro fuel a v s hf hlo ha hmax hfail
    obtain ⟨f, rfl⟩ : ∃ f, fuel = f + 1 := ⟨fuel - 1, by omega⟩
    have ha3 : a < c.opts.MaxRetries := by omega
    have hw : wrapInt (a + 1) = a + 1 := wrapInt_of_range _ (by omega) (by omega)
    have hrec := ih f (a + 1) (varsOf (runPS c.client s cmd "").1) (runPS c.client s cmd "").2
      (by omega) (by omega) (by push_cast at ha; omega) hmax
      (fun i hi => by rw [← callResult_succ]; exact hfail (i + 1) (by omega))
    rw [coreLoop_step_fail runPS c cmd f a v s (by omega) (hfail 0 (by omega)), hw, hrec]
    simp only [Option.map_some', ha3, if_true]
    rw [← callResult_succ, ← stateAfter_succ]
    rfl

/-- With the largest bound and a session that always fails the loop never ends. -/
theorem coreLoop_diverges {H σ : Type} (runPS : RunPS H σ) (c : Client H) (cmd : String)
    (hmax : c.opts.MaxRetries = maxInt)
    (hfail : ∀ s, (runPS c.client s cmd "").1.err ≠ none)
    (fuel : Nat) : ∀ (a : Int) (v : LoopVars) (s : σ), a ≤ maxInt →
    coreLoop runPS c cmd fuel a v s = none := by
  induction fuel with
  | zero =>
    intro a v s ha
    simp [coreLoop, hmax, ha]
  | succ f ih =>
    intro a v s ha
    rw [coreLoop_step_fail runPS c cmd f a v s (by omega) (hfail s),
      ih _ _ _ (wrapInt_le_maxInt _)]
    rfl

/-- Every run call of the loop carries the composed command and empty standard input. -/
theorem coreLoop_runCalls {H σ : Type} (runPS : RunPS H σ) (c : Client H) (cmd : String)
    (fuel : Nat) : ∀ (a : Int) (v : LoopVars) (s : σ) (r : LoopVars × σ × List Event),
    coreLoop runPS c cmd fuel a v s = some r →
    runCalls r.2.2 = List.replicate (runCalls r.2.2).length (cmd, "") := by
  induction fuel with
  | zero =>
    intro a v s r h
    unfold coreLoop at h
    split at h
    · cases h
    · cases h; rfl
  | succ f ih =>
    intro a v s r h
    by_cases ha : a ≤ c.opts.MaxRetries
    · by_cases hok : (runPS c.client s cmd "").1.err = none
      · rw [coreLoop_step_ok runPS c cmd f a v s ha hok] at h
        cases h; rfl
      · rw [coreLoop_step_fail runPS c cmd f a v s ha hok] at h
        cases hrec : coreLoop runPS c cmd f (wrapInt (a + 1))
            (varsOf (runPS c.client s cmd "").1) (runPS c.client s cmd "").2 with
        | none => rw [hrec] at h; cases h
        | some x =>
          rw [hrec] at h
          cases h
          have := ih _ _ _ x hrec
          by_cases h2 : a < c.opts.MaxRetries
          · simp only [h2, if_true, runCalls, List.singleton_append, List.length_cons,
              List.replicate_succ]
            rw [← this]
          · simp only [h2, if_false, runCalls, List.nil_append, List.length_cons,
              List.replicate_succ]
            rw [← this]
    · have h2 : ¬ a ≤ c.opts.MaxRetries := ha
      unfold coreLoop at h
      simp only [h2, if_false] at h
      cases h; rfl

theorem eraseLogs_eq_some {σ : Type} (r : Option (LoopVars × σ × List Event))
    (v : LoopVars) (s : σ) (evs : List Event) (h : eraseLogs r = some (v, s, evs)) :
    ∃ evs1, r = some (v, s, evs1) ∧ effects evs1 = evs := by
  cases r with
  | none => simp [eraseLogs] at h
  | some x =>
    obtain ⟨v1, s1, e1⟩ := x
    simp only [eraseLogs, Option.map_some', Option.some.injEq, Prod.mk.injEq] at h
    obtain ⟨rfl, rfl, rfl⟩ := h
    exact ⟨e1, rfl, rfl⟩

theorem eraseLogs_eq_none {σ : Type} (r : Option (LoopVars × σ × List Event))
    (h : eraseLogs r = none) : r = none := by
  cases r with
  | none => rfl
  | some x => simp [eraseLogs] at h

/-- `ExecuteCommand` in terms of the log-free loop. -/
theorem ExecuteCommand_of_core {H σ : Type} (runPS : RunPS H σ) (c : Client H)
    (command : String) (opts : ExecuteOptions) (fuel : Nat) (s s1 : σ) (v : LoopVars)
    (evs : List Event)
    (h : coreLoop runPS c (fullCommand opts.WorkingDir command) fuel 1 {} s = some (v, s1, evs)) :
    ∃ o, ExecuteCommand runPS c command (some opts) fuel s = some o ∧
      o.result = resultOf "command execution failed after " c.opts.MaxRetries v ∧
      o.sess = s1 ∧ effects o.events = evs := by
  rw [← commandLoop_core] at h
  obtain ⟨evs1, h1, h2⟩ := eraseLogs_eq_some _ _ _ _ h
  unfold ExecuteCommand
  simp only [Option.getD_some, h1]
  cases hv : v.err with
  | some e =>
    refine ⟨_, rfl, ?_, rfl, ?_⟩
    · simp [resultOf, hv]
    · subst h2
      by_cases hs : opts.StreamOutput = true <;> simp [effects, isLog, hs]
  | none =>
    refine ⟨_, rfl, ?_, rfl, ?_⟩
    · simp [resultOf, hv]
    · subst h2
      by_cases hs : opts.StreamOutput = true <;> simp [effects, isLog, hs]

theorem ExecuteCommand_none {H σ : Type} (runPS : RunPS H σ) (c : Client H)
    (command : String) (opts : ExecuteOptions) (fuel : Nat) (s : σ)
    (h : coreLoop runPS c (fullCommand opts.WorkingDir command) fuel 1 {} s = none) :
    ExecuteCommand runPS c command (some opts) fuel s = none := by
  rw [← commandLoop_core] at h
  have h1 := eraseLogs_eq_none _ h
  unfold ExecuteCommand
  simp only [Option.getD_some, h1]

/-- `executeInternal` in terms of the log-free loop. -/
theorem executeInternal_of_core {H σ : Type} (runPS : RunPS H σ) (c : Client H)
    (command : String) (opts : ExecuteOptions) (fuel : Nat) (s s1 : σ) (v : LoopVars)
    (evs : List Event)
    (h : coreLoop runPS c (fullCommand opts.WorkingDir command) fuel 1 {} s = some (v, s1, evs)) :
    ∃ o, executeInternal runPS c command opts fuel s = some o ∧
      o.result = resultOf "execution failed after " c.opts.MaxRetries v ∧
      o.sess = s1 ∧ effects o.events = evs := by
  rw [← internalLoop_core runPS c opts] at h
  obtain ⟨evs1, h1, h2⟩ := eraseLogs_eq_some _ _ _ _ h
  unfold executeInternal
  simp only [h1]
  cases hv : v.err with
  | some e =>
    refine ⟨_, rfl, ?_, rfl, ?_⟩
    · simp [resultOf, hv]
    · simpa [effects, isLog] using h2
  | none =>
    refine ⟨_, rfl, ?_, rfl, ?_⟩
    · simp [resultOf, hv]
    · simpa [effects, isLog] using h2

theorem executeInternal_none {H σ : Type} (runPS : RunPS H σ) (c : Client H)
    (command : String) (opts : ExecuteOptions) (fuel : Nat) (s : σ)
    (h : coreLoop runPS c (fullCommand opts.WorkingDir command) fuel 1 {} s = none) :
    executeInternal runPS c command opts fuel s = none := by
  rw [← internalLoop_core runPS c opts] at h
  have h1 := eraseLogs_eq_none _ h
  unfold executeInternal
  simp only [h1]

theorem runCalls_attempts (cmd : String) (d : Int) (n : Nat) :
    runCalls (failedAttempts cmd d n ++ [Event.run cmd ""]) = List.replicate (n + 1) (cmd, "") := by
  rw [runCalls_append, runCalls_failedAttempts]
  simp [runCalls, List.replicate_succ']

theorem sleepCalls_attempts (cmd : String) (d : Int) (n : Nat) :
    sleepCalls (failedAttempts cmd d n ++ [Event.run cmd ""]) = List.replicate n d := by
  rw [sleepCalls_append, sleepCalls_failedAttempts]
  simp [sleepCalls]

/-- C1: when the first `k - 1` run calls fail and call `k` returns `(stdout, stderr,
exitCode)` without error, with `1 ≤ k ≤ MaxRetries`, then (given fuel for `k` iterations)
`ExecuteCommand` and `executeInternal` return the result `{exitCode, stdout, stderr}` and no
error, whatever the exit code, after exactly `k` run calls and `k - 1` sleeps. -/
theorem retry_succeeds_at_kth_attempt {H σ : Type} (runPS : RunPS H σ) (c : Client H)
    (command : String) (opts : ExecuteOptions) (k fuel : Nat) (s : σ)
    (stdout stderr : String) (exitCode : Int)
    (hk : 1 ≤ k) (hmax : (k : Int) ≤ c.opts.MaxRetries) (hint : c.opts.MaxRetries ≤ maxInt)
    (hfuel : k ≤ fuel)
    (hfail : ∀ i, i + 1 < k →
      (callResult runPS c.client (fullCommand opts.WorkingDir command) s i).err ≠ none)
    (hok : callResult runPS c.client (fullCommand opts.WorkingDir command) s (k - 1) =
      ⟨stdout, stderr, exitCode, none⟩) :
    (∃ o, ExecuteCommand runPS c command (some opts) fuel s = some o ∧
      o.result = .ok ⟨exitCode, stdout, stderr⟩ ∧
      runCalls o.events = List.replicate k (fullCommand opts.WorkingDir command, "") ∧
      sleepCalls o.events = List.replicate (k - 1) c.opts.RetryInterval) ∧
    (∃ o, executeInternal runPS c command opts fuel s = some o ∧
      o.result = .ok ⟨exitCode, stdout, stderr⟩ ∧
      runCalls o.events = List.replicate k (fullCommand opts.WorkingDir command, "") ∧
      sleepCalls o.events = List.replicate (k - 1) c.opts.RetryInterval) := by
  obtain ⟨n, rfl⟩ : ∃ n, k = n + 1 := ⟨k - 1, by omega⟩
  simp only [Nat.add_sub_cancel] at hok ⊢
  have hcore := coreLoop_success runPS c (fullCommand opts.WorkingDir command) n fuel 1 {} s
    (by omega) (by omega) (by push_cast at hmax; omega) hint
    (fun i hi => hfail i (by omega)) (by rw [hok])
  rw [hok] at hcore
  constructor
  · obtain ⟨o, h1, h2, _, h4⟩ := ExecuteCommand_of_core runPS c command opts fuel s _ _ _ hcore
    refine ⟨o, h1, ?_, ?_, ?_⟩
    · rw [h2]; rfl
    · rw [← runCalls_effects, h4, runCalls_attempts]
    · rw [← sleepCalls_effects, h4, sleepCalls_attempts]
  · obtain ⟨o, h1, h2, _, h4⟩ := executeInternal_of_core runPS c command opts fuel s _ _ _ hcore
    refine ⟨o, h1, ?_, ?_, ?_⟩
    · rw [h2]; rfl
    · rw [← runCalls_effects, h4, runCalls_attempts]
    · rw [← sleepCalls_effects, h4, sleepCalls_attempts]

/-- Witness of C1: a bound of 3, two failures, then success with exit code 127. -/
theorem retry_succeeds_at_kth_attempt_witness :
    (∃ o, ExecuteCommand scriptedRun (stubClient 3) "Get-Date" (some {}) 3
        [⟨"", "", 1, some "timeout"⟩, ⟨"", "", 1, some "reset"⟩, ⟨"out", "warn", 127, none⟩]
          = some o ∧
      o.result = .ok ⟨127, "out", "warn"⟩ ∧
      runCalls o.events = List.replicate 3 (fullCommand "" "Get-Date", "") ∧
      sleepCalls o.events = List.replicate (3 - 1) (stubClient 3).opts.RetryInterval) ∧
    (∃ o, executeInternal scriptedRun (stubClient 3) "Get-Date" {} 3
        [⟨"", "", 1, some "timeout"⟩, ⟨"", "", 1, some "reset"⟩, ⟨"out", "warn", 127, none⟩]
          = some o ∧
      o.result = .ok ⟨127, "out", "warn"⟩ ∧
      runCalls o.events = List.replicate 3 (fullCommand "" "Get-Date", "") ∧
      sleepCalls o.events = List.replicate (3 - 1) (stubClient 3).opts.RetryInterval) :=
  retry_succeeds_at_kth_attempt scriptedRun (stubClient 3) "Get-Date" {} 3 3
    [⟨"", "", 1, some "timeout"⟩, ⟨"", "", 1, some "reset"⟩, ⟨"out", "warn", 127, none⟩]
    "out" "warn" 127 (by decide) (by decide) (by decide) (by decide)
    (fun i hi => by
      rcases i with _ | _ | i
      · decide
      · decide
      · omega)
    (by rfl)

/-- C2, as amended: when every run call fails and `1 ≤ MaxRetries < 2^63 - 1`, then (given
fuel for `MaxRetries` iterations) `ExecuteCommand` and `executeInternal` return no result
and an error whose text states the attempt count and ends with the error of the last
attempt, after exactly `MaxRetries` run calls and `MaxRetries - 1` sleeps. -/
theorem retry_exhausted_below_maxInt {H σ : Type} (runPS : RunPS H σ) (c : Client H)
    (command : String) (opts : ExecuteOptions) (n fuel : Nat) (s : σ)
    (hn : 1 ≤ n) (hmax : c.opts.MaxRetries = n) (hint : c.opts.MaxRetries < maxInt)
    (hfuel : n ≤ fuel)
    (hfail : ∀ i,
      (callResult runPS c.client (fullCommand opts.WorkingDir command) s i).err ≠ none) :
    ∃ e, (callResult runPS c.client (fullCommand opts.WorkingDir command) s (n - 1)).err
        = some e ∧
      (∃ o, ExecuteCommand runPS c command (some opts) fuel s = some o ∧
        o.result = .error ("command execution failed after " ++ toString c.opts.MaxRetries ++
          " attempts: " ++ e) ∧
        runCalls o.events = List.replicate n (fullCommand opts.WorkingDir command, "") ∧
        sleepCalls o.events = List.replicate (n - 1) c.opts.RetryInterval) ∧
      (∃ o, executeInternal runPS c command opts fuel s = some o ∧
        o.result = .error ("execution failed after " ++ toString c.opts.MaxRetries ++
          " attempts: " ++ e) ∧
        runCalls o.events = List.replicate n (fullCommand opts.WorkingDir command, "") ∧
        sleepCalls o.events = List.replicate (n - 1) c.opts.RetryInterval) := by
  obtain ⟨m, rfl⟩ : ∃ m, n = m + 1 := ⟨n - 1, by omega⟩
  simp only [Nat.add_sub_cancel]
  obtain ⟨e, he⟩ := Option.ne_none_iff_exists.mp (hfail m)
  have hcore := coreLoop_exhaust runPS c (fullCommand opts.WorkingDir command) m fuel 1 {} s
    (by omega) (by omega) (by rw [hmax]; push_cast; omega) hint (fun i _ => hfail i)
  refine ⟨e, he.symm, ?_, ?_⟩
  · obtain ⟨o, h1, h2, _, h4⟩ := ExecuteCommand_of_core runPS c command opts fuel s _ _ _ hcore
    refine ⟨o, h1, ?_, ?_, ?_⟩
    · rw [h2]; simp [resultOf, varsOf, ← he]
    · rw [← runCalls_effects, h4, runCalls_attempts]
    · rw [← sleepCalls_effects, h4, sleepCalls_attempts]
  · obtain ⟨o, h1, h2, _, h4⟩ := executeInternal_of_core runPS c command opts fuel s _ _ _ hcore
    refine ⟨o, h1, ?_, ?_, ?_⟩
    · rw [h2]; simp [resultOf, varsOf, ← he]
    · rw [← runCalls_effects, h4, runCalls_attempts]
    · rw [← sleepCalls_effects, h4, sleepCalls_attempts]

/-- Witness of C2 as amended: a bound of 2 and a session that always fails. -/
theorem retry_exhausted_below_maxInt_witness :
    ∃ e, (callResult failingRun (stubClient 2).client (fullCommand "" "Get-Date") () (2 - 1)).err
        = some e ∧
      (∃ o, ExecuteCommand failingRun (stubClient 2) "Get-Date" (some {}) 2 () = some o ∧
        o.result = .error ("command execution failed after " ++
          toString (stubClient 2).opts.MaxRetries ++ " attempts: " ++ e) ∧
        runCalls o.events = List.replicate 2 (fullCommand "" "Get-Date", "") ∧
        sleepCalls o.events = List.replicate (2 - 1) (stubClient 2).opts.RetryInterval) ∧
      (∃ o, executeInternal failingRun (stubClient 2) "Get-Date" {} 2 () = some o ∧
        o.result = .error ("execution failed after " ++
          toString (stubClient 2).opts.MaxRetries ++ " attempts: " ++ e) ∧
        runCalls o.events = List.replicate 2 (fullCommand "" "Get-Date", "") ∧
        sleepCalls o.events = List.replicate (2 - 1) (stubClient 2).opts.RetryInterval) :=
  retry_exhausted_below_maxInt failingRun (stubClient 2) "Get-Date" {} 2 2 ()
    (by decide) (by rfl) (by decide) (by decide) (fun _ => by simp [callResult, failingRun])

/-- Counterexample to C2 as stated: with `MaxRetries = 2^63 - 1` and a session that always
fails, `attempt++` wraps around and neither `ExecuteCommand` nor `executeInternal` ever
returns, however many iterations are allowed. -/
theorem retry_never_returns_at_maxInt :
    ¬ ∃ fuel : Nat,
      (ExecuteCommand failingRun (stubClient 9223372036854775807) "Get-Date" (some {}) fuel ()
          ).isSome = true ∨
      (executeInternal failingRun (stubClient 9223372036854775807) "Get-Date" {} fuel ()
          ).isSome = true := by
  rintro ⟨fuel, h⟩
  have hcore := coreLoop_diverges failingRun (stubClient 9223372036854775807)
    (fullCommand "" "Get-Date") rfl (fun _ => by simp [failingRun]) fuel 1 {} ()
    (by decide)
  rcases h with h | h
  · rw [ExecuteCommand_none _ _ _ _ _ _ hcore] at h
    cases h
  · rw [executeInternal_none _ _ _ _ _ _ hcore] at h
    cases h

/-- With a bound of zero or less the loop body never runs and both executors report the
zero-valued success result without a single run call. -/
theorem nonpositive_bound_skips_run {H σ : Type} (runPS : RunPS H σ) (c : Client H)
    (command : String) (opts : ExecuteOptions) (fuel : Nat) (s : σ)
    (hmax : c.opts.MaxRetries ≤ 0) :
    (∃ o, ExecuteCommand runPS c command (some opts) fuel s = some o ∧
      o.result = .ok ⟨0, "", ""⟩ ∧ o.sess = s ∧ effects o.events = []) ∧
    (∃ o, executeInternal runPS c command opts fuel s = some o ∧
      o.result = .ok ⟨0, "", ""⟩ ∧ o.sess = s ∧ effects o.events = []) := by
  have hcore := coreLoop_past runPS c (fullCommand opts.WorkingDir command) fuel 1 {} s
    (by omega)
  exact ⟨ExecuteCommand_of_core runPS c command opts fuel s _ _ _ hcore,
    executeInternal_of_core runPS c command opts fuel s _ _ _ hcore⟩

/-- C3, the code at the failing input `PLUGIN_MAX_RETRIES=0`: the value reaches the options
as `MaxRetries = 0`, `ExecuteCommand` and `executeInternal` return the success result
`{0, "", ""}` without any run call, and the process exits with code 0. -/
theorem zero_max_retries_reports_success_without_run :
    (parseConfig asciiLower (envOf [("PLUGIN_HOST", "h"), ("PLUGIN_USERNAME", "u"),
        ("PLUGIN_PASSWORD", "p"), ("PLUGIN_COMMAND", "Get-Date"),
        ("PLUGIN_MAX_RETRIES", "0")])).toOption.map (fun cfg => cfg.MaxRetries) = some 0 ∧
    (ExecuteCommand failingRun (stubClient 0) "Get-Date" (some {}) 0 ()).map
        (fun o => (o.result.toOption, runCalls o.events)) = some (some ⟨0, "", ""⟩, []) ∧
    (executeInternal failingRun (stubClient 0) "Get-Date" {} 0 ()).map
        (fun o => (o.result.toOption, runCalls o.events)) = some (some ⟨0, "", ""⟩, []) ∧
    (main stubLib failingRun (envOf [("PLUGIN_HOST", "h"), ("PLUGIN_USERNAME", "u"),
        ("PLUGIN_PASSWORD", "p"), ("PLUGIN_COMMAND", "Get-Date"),
        ("PLUGIN_MAX_RETRIES", "0")]) 0 ()).map
        (fun x => (x.code, runCalls x.events)) = some (0, []) := by
  decide

theorem ExecuteCommand_view {H σ : Type} (runPS : RunPS H σ) (c : Client H)
    (command : String) (opts : ExecuteOptions) (fuel : Nat) (s : σ) :
    (ExecuteCommand runPS c command (some opts) fuel s).map Outcome.view =
      (coreLoop runPS c (fullCommand opts.WorkingDir command) fuel 1 {} s).map
        (fun x => (resultOf "command execution failed after " c.opts.MaxRetries x.1,
          x.2.1, x.2.2)) := by
  cases hcore : coreLoop runPS c (fullCommand opts.WorkingDir command) fuel 1 {} s with
  | none => rw [ExecuteCommand_none _ _ _ _ _ _ hcore]; rfl
  | some x =>
    obtain ⟨v, s1, evs⟩ := x
    obtain ⟨o, h1, h2, h3, h4⟩ := ExecuteCommand_of_core runPS c command opts fuel s _ _ _ hcore
    rw [h1]
    simp [Outcome.view, h2, h3, h4]

theorem executeInternal_view {H σ : Type} (runPS : RunPS H σ) (c : Client H)
    (command : String) (opts : ExecuteOptions) (fuel : Nat) (s : σ) :
    (executeInternal runPS c command opts fuel s).map Outcome.view =
      (coreLoop runPS c (fullCommand opts.WorkingDir command) fuel 1 {} s).map
        (fun x => (resultOf "execution failed after " c.opts.MaxRetries x.1, x.2.1, x.2.2)) := by
  cases hcore : coreLoop runPS c (fullCommand opts.WorkingDir command) fuel 1 {} s with
  | none => rw [executeInternal_none _ _ _ _ _ _ hcore]; rfl
  | some x =>
    obtain ⟨v, s1, evs⟩ := x
    obtain ⟨o, h1, h2, h3, h4⟩ := executeInternal_of_core runPS c command opts fuel s _ _ _ hcore
    rw [h1]
    simp [Outcome.view, h2, h3, h4]

theorem ExecuteScript_view {H σ : Type} (runPS : RunPS H σ) (c : Client H)
    (script : String) (opts : ExecuteOptions) (fuel : Nat) (s : σ) :
    (ExecuteScript runPS c script (some opts) fuel s).map Outcome.view =
      (executeInternal runPS c
        ("powershell.exe -NonInteractive -EncodedCommand " ++ encodeToBase64 script)
        opts fuel s).map Outcome.view := by
  unfold ExecuteScript
  simp only [Option.getD_some, Option.map_map]
  congr 1

theorem outcomeRunCalls_eq {σ : Type} (r : Option (Outcome σ)) :
    outcomeRunCalls r = ((r.map Outcome.view).map (fun x => runCalls x.2.2)).getD [] := by
  cases r with
  | none => rfl
  | some o => simp [outcomeRunCalls, Outcome.view, runCalls_effects]

theorem coreLoop_runCalls_getD {H σ : Type} (runPS : RunPS H σ) (c : Client H) (cmd : String)
    (fuel : Nat) (s : σ) (f : LoopVars → Except String ExecuteResult) :
    ((((coreLoop runPS c cmd fuel 1 {} s).map (fun x => (f x.1, x.2.1, x.2.2))).map
        (fun x => runCalls x.2.2)).getD []) =
      List.replicate ((((coreLoop runPS c cmd fuel 1 {} s).map
        (fun x => (f x.1, x.2.1, x.2.2))).map (fun x => runCalls x.2.2)).getD []).length
        (cmd, "") := by
  cases hcore : coreLoop runPS c cmd fuel 1 {} s with
  | none => rfl
  | some x => simpa using coreLoop_runCalls runPS c cmd fuel 1 {} s x hcore

theorem fullCommand_eq (workingDir payload : String) :
    fullCommand workingDir payload =
      if workingDir = "" ∨ workingDir = "C:\\" then payload
      else "cd '" ++ workingDir ++ "'; " ++ payload := by
  unfold fullCommand
  by_cases h1 : workingDir = ""
  · simp [h1]
  · by_cases h2 : workingDir = "C:\\"
    · simp [h2]
    · simp [h1, h2]

/-- C6: every run call of `ExecuteCommand` and of `executeInternal` carries exactly the
payload when the working directory is empty or `C:\`, and `cd '<dir>'; <payload>` with the
directory inserted verbatim otherwise; a directory with a single quote in it is not
escaped. -/
theorem run_command_is_composed {H σ : Type} (runPS : RunPS H σ) (c : Client H)
    (payload : String) (opts : ExecuteOptions) (fuel : Nat) (s : σ) :
    outcomeRunCalls (ExecuteCommand runPS c payload (some opts) fuel s) =
      List.replicate (outcomeRunCalls (ExecuteCommand runPS c payload (some opts) fuel s)).length
        (if opts.WorkingDir = "" ∨ opts.WorkingDir = "C:\\" then payload
          else "cd '" ++ opts.WorkingDir ++ "'; " ++ payload, "") ∧
    outcomeRunCalls (executeInternal runPS c payload opts fuel s) =
      List.replicate (outcomeRunCalls (executeInternal runPS c payload opts fuel s)).length
        (if opts.WorkingDir = "" ∨ opts.WorkingDir = "C:\\" then payload
          else "cd '" ++ opts.WorkingDir ++ "'; " ++ payload, "") ∧
    outcomeRunCalls (ExecuteCommand failingRun (stubClient 2) "Get-Date"
        (some { WorkingDir := "D:\\it's" }) 2 ()) =
      [("cd 'D:\\it's'; Get-Date", ""), ("cd 'D:\\it's'; Get-Date", "")] ∧
    outcomeRunCalls (executeInternal failingRun (stubClient 2) "Get-Date"
        { WorkingDir := "C:\\" } 2 ()) = [("Get-Date", ""), ("Get-Date", "")] := by
  refine ⟨?_, ?_, by decide, by decide⟩
  · rw [outcomeRunCalls_eq, ExecuteCommand_view, ← fullCommand_eq]
    exact coreLoop_runCalls_getD _ _ _ _ _ _
  · rw [outcomeRunCalls_eq, executeInternal_view, ← fullCommand_eq]
    exact coreLoop_runCalls_getD _ _ _ _ _ _

/-- C9: with `StreamOutput = true`, `ExecuteCommand` and `ExecuteScript` return (or fail to
return) exactly as with `StreamOutput = false`: the same result or error, the same state of
the remote side, and the same run calls and sleeps in the same order; only logger calls
differ. -/
theorem stream_output_same_as_buffered {H σ : Type} (runPS : RunPS H σ) (c : Client H)
    (command script : String) (opts : ExecuteOptions) (fuel : Nat) (s : σ) :
    (ExecuteCommand runPS c command (some { opts with StreamOutput := true }) fuel s).map
        Outcome.view =
      (ExecuteCommand runPS c command (some { opts with StreamOutput := false }) fuel s).map
        Outcome.view ∧
    (ExecuteScript runPS c script (some { opts with StreamOutput := true }) fuel s).map
        Outcome.view =
      (ExecuteScript runPS c script (some { opts with StreamOutput := false }) fuel s).map
        Outcome.view := by
  constructor
  · rw [ExecuteCommand_view, ExecuteCommand_view]
  · rw [ExecuteScript_view, ExecuteScript_view, executeInternal_view, executeInternal_view]

/-! ## The script encoder -/

theorem base64Value_base64Char : ∀ n, n < 64 → base64Value (base64Char n) = some n := by
  decide

theorem base64Char_ne_pad : ∀ n, n < 64 → base64Char n ≠ '=' := by
  decide

theorem unitBytes_lt (us : List Nat) : ∀ b ∈ unitBytes us, b < 256 := by
  induction us with
  | nil => simp [unitBytes]
  | cons u us ih =>
    intro b hb
    simp only [unitBytes, List.mem_cons] at hb
    rcases hb with rfl | rfl | hb
    · omega
    · omega
    · exact ih b hb

/-- Decoding undoes `base64Encode` on lists of bytes. -/
theorem base64Decode_encode (bs : List Nat) (h : ∀ b ∈ bs, b < 256) :
    base64Decode (base64Encode bs) = some bs := by
  induction bs using base64Encode.induct with
  | case1 => rfl
  | case2 a =>
    have ha : a < 256 := h a (by simp)
    simp only [base64Encode, base64Decode]
    rw [base64Value_base64Char _ (by omega), base64Value_base64Char _ (by omega)]
    simp only [and_self, if_true]
    congr 2
    omega
  | case3 a b =>
    have ha : a < 256 := h a (by simp)
    have hb : b < 256 := h b (by simp)
    simp only [base64Encode, base64Decode]
    rw [base64Value_base64Char _ (by omega), base64Value_base64Char _ (by omega)]
    simp only [base64Char_ne_pad _ (show b % 16 * 4 < 64 by omega), if_false]
    rw [base64Value_base64Char _ (by omega)]
    simp only [if_true]
    congr 2
    · omega
    · congr 1
      omega
  | case4 a b c rest ih =>
    have ha : a < 256 := h a (by simp)
    have hb : b < 256 := h b (by simp)
    have hc : c < 256 := h c (by simp)
    have hrest := ih (fun x hx => h x (by simp [hx]))
    simp only [base64Encode, base64Decode]
    rw [base64Value_base64Char _ (by omega), base64Value_base64Char _ (by omega)]
    simp only [base64Char_ne_pad _ (show b % 16 * 4 + c / 64 < 64 by omega),
      base64Char_ne_pad _ (show c % 64 < 64 by omega), if_false]
    rw [base64Value_base64Char _ (by omega)]
    simp only
    rw [base64Value_base64Char _ (by omega), hrest]
    simp only
    congr 2
    · omega
    · congr 1
      · omega
      · congr 1
        omega

theorem utf16leUnits_unitBytes (us : List Nat) (h : ∀ u ∈ us, u < 65536) :
    utf16leUnits (unitBytes us) = some us := by
  induction us with
  | nil => rfl
  | cons u us ih =>
    have hu : u < 65536 := h u (by simp)
    simp only [unitBytes, utf16leUnits, ih (fun x hx => h x (by simp [hx])), Option.map_some']
    congr 2
    omega

theorem utf16EncodeRune_lt (v : Nat) : ∀ u ∈ utf16EncodeRune v, u < 65536 := by
  intro u hu
  unfold utf16EncodeRune at hu
  split at hu
  · simp only [List.mem_singleton] at hu
    omega
  · split at hu
    · simp only [List.mem_cons, List.mem_singleton, List.not_mem_nil, or_false] at hu
      omega
    · simp only [List.mem_singleton] at hu
      omega

theorem utf16Encode_lt (vs : List Nat) : ∀ u ∈ utf16Encode vs, u < 65536 := by
  induction vs with
  | nil => simp [utf16Encode]
  | cons v vs ih =>
    intro u hu
    simp only [utf16Encode, List.mem_append] at hu
    rcases hu with hu | hu
    · exact utf16EncodeRune_lt v u hu
    · exact ih u hu

theorem utf16Decode_single (u : Nat) (rest : List Nat) (h : ¬ (0xD800 ≤ u ∧ u < 0xE000)) :
    utf16Decode (u :: rest) = Char.ofNat u :: utf16Decode rest := by
  cases rest with
  | nil => simp [utf16Decode, h]
  | cons l rest =>
    have h2 : ¬ (0xD800 ≤ u ∧ u < 0xDC00 ∧ 0xDC00 ≤ l ∧ l < 0xE000) := by omega
    simp [utf16Decode, h, h2]

theorem utf16Decode_pair (u l : Nat) (rest : List Nat)
    (h : 0xD800 ≤ u ∧ u < 0xDC00 ∧ 0xDC00 ≤ l ∧ l < 0xE000) :
    utf16Decode (u :: l :: rest) =
      Char.ofNat (0x10000 + (u - 0xD800) * 1024 + (l - 0xDC00)) :: utf16Decode rest := by
  simp [utf16Decode, h]

theorem char_toNat_scalar (c : Char) :
    c.toNat < 0xD800 ∨ (0xE000 ≤ c.toNat ∧ c.toNat < 0x110000) := by
  have h := c.valid
  simp only [UInt32.isValidChar, Nat.isValidChar] at h
  have : c.toNat = c.val.toNat := rfl
  omega

/-- Decoding undoes `utf16Encode` on the code points of a text. -/
theorem utf16Decode_encode (cs : List Char) :
    utf16Decode (utf16Encode (cs.map Char.toNat)) = cs := by
  induction cs with
  | nil => rfl
  | cons c cs ih =>
    simp only [List.map_cons, utf16Encode]
    have hv := char_toNat_scalar c
    unfold utf16EncodeRune
    by_cases h1 : c.toNat < 0xD800 ∨ (0xE000 ≤ c.toNat ∧ c.toNat < 0x10000)
    · simp only [h1, if_true, List.singleton_append]
      rw [utf16Decode_single _ _ (by omega), ih, Char.ofNat_toNat]
    · have h2 : 0x10000 ≤ c.toNat ∧ c.toNat ≤ 0x10FFFF := by omega
      simp only [h1, h2, and_self, if_true, if_false, List.cons_append, List.nil_append]
      have hc : 0x10000 + (0xD800 + (c.toNat - 0x10000) / 1024 % 1024 - 0xD800) * 1024 +
          (0xDC00 + (c.toNat - 0x10000) % 1024 - 0xDC00) = c.toNat := by omega
      rw [utf16Decode_pair _ _ _ (by omega), ih, hc, Char.ofNat_toNat]

/-- C5: decoding `encodeToBase64 S` with standard padded base64 and reading the bytes as
UTF-16 little-endian code units (low byte first, surrogate pairs above U+FFFF) yields `S`. -/
theorem encodeToBase64_roundtrip (S : String) : decodeScript (encodeToBase64 S) = some S := by
  unfold decodeScript encodeToBase64
  simp only
  rw [base64Decode_encode _ (unitBytes_lt _)]
  simp only
  rw [utf16leUnits_unitBytes _ (utf16Encode_lt _)]
  simp only
  rw [utf16Decode_encode]

/-! ## The session factory -/

theorem newClientCalls_append (a b : List Event) :
    newClientCalls (a ++ b) = newClientCalls a ++ newClientCalls b := by
  induction a with
  | nil => rfl
  | cons e es ih => cases e <;> simp [newClientCalls, ih]

theorem configureProxy_events {H U : Type} (lib : Lib H U) (endpoint : Endpoint)
    (opts : Options) :
    effects (configureProxy lib endpoint opts).2 = [] := by
  unfold configureProxy
  by_cases hb : shouldBypassProxy endpoint.Host opts.NoProxy = true
  · simp [hb, effects, isLog]
  · simp only [hb, if_false]
    generalize (if endpoint.HTTPS = true then opts.HTTPSProxy else opts.HTTPProxy) = proxyURL
    by_cases hu : proxyURL ≠ ""
    · rw [if_pos hu]
      cases lib.parseURL proxyURL <;> simp [effects, isLog]
    · rw [if_neg hu]
      rfl

theorem newClientCalls_of_effects_nil (evs : List Event) (h : effects evs = []) :
    newClientCalls evs = [] := by
  induction evs with
  | nil => rfl
  | cons e es ih =>
    cases e <;> simp [effects, isLog] at h
    simp only [newClientCalls]
    exact ih (by simpa [effects] using h)

/-- `configureProxy` fails exactly when the host does not bypass the proxy and the proxy
URL of the endpoint's transport is non-empty and does not parse. -/
theorem configureProxy_fails_iff {H U : Type} (lib : Lib H U) (endpoint : Endpoint)
    (opts : Options) :
    (∃ err, (configureProxy lib endpoint opts).1 = .error err) ↔
      shouldBypassProxy endpoint.Host opts.NoProxy = false ∧
      (if endpoint.HTTPS = true then opts.HTTPSProxy else opts.HTTPProxy) ≠ "" ∧
      ∃ err, lib.parseURL (if endpoint.HTTPS = true then opts.HTTPSProxy else opts.HTTPProxy)
        = .error err := by
  unfold configureProxy
  by_cases hb : shouldBypassProxy endpoint.Host opts.NoProxy = true
  · simp [hb]
  · simp only [hb, if_false]
    have hb2 : shouldBypassProxy endpoint.Host opts.NoProxy = false := by
      simpa using hb
    generalize (if endpoint.HTTPS = true then opts.HTTPSProxy else opts.HTTPProxy) = proxyURL
    by_cases hu : proxyURL ≠ ""
    · rw [if_pos hu]
      cases hparse : lib.parseURL proxyURL with
      | error e => simp [hb2, hu]
      | ok u => simp [hb2]
    · rw [if_neg hu]
      simp [hu]

/-- C7, as amended: when `configureProxy` does not fail, an auth type whose lower-case form
is neither `ntlm` nor `kerberos` makes `NewClient` return no client and the error
`unsupported auth type: <value>` without a call of the external client constructor; with
`ntlm` or `kerberos` no error of `NewClient` is the unsupported-auth-type error; and when
the host does not bypass the proxy and the proxy URL of the target's transport is
non-empty and does not parse, `NewClient` fails with the proxy configuration error,
whatever the auth type, without a call of the external client constructor. -/
theorem unsupported_auth_after_proxy {H U : Type} (lib : Lib H U) (host : String) (port : Int)
    (username password : String) (opts : Options) :
    ((∀ err, (configureProxy lib ⟨host, port, opts.Protocol == "https", false, opts.Timeout⟩
          opts).1 ≠ .error err) →
      ¬ (lib.ToLower opts.AuthType = "ntlm" ∨ lib.ToLower opts.AuthType = "kerberos") →
      errorOf (NewClient lib host port username password (some opts)).1 =
          some ("unsupported auth type: " ++ opts.AuthType) ∧
        handleOf (NewClient lib host port username password (some opts)).1 = none ∧
        newClientCalls (NewClient lib host port username password (some opts)).2 = []) ∧
    ((lib.ToLower opts.AuthType = "ntlm" ∨ lib.ToLower opts.AuthType = "kerberos") →
      ∀ x, errorOf (NewClient lib host port username password (some opts)).1 ≠
        some ("unsupported auth type: " ++ x)) ∧
    (∀ err, shouldBypassProxy host opts.NoProxy = false →
      (if (opts.Protocol == "https") = true then opts.HTTPSProxy else opts.HTTPProxy) ≠ "" →
      lib.parseURL (if (opts.Protocol == "https") = true then opts.HTTPSProxy
        else opts.HTTPProxy) = .error err →
      errorOf (NewClient lib host port username password (some opts)).1 =
          some ("proxy configuration failed: " ++ ("invalid proxy URL: " ++ err)) ∧
        handleOf (NewClient lib host port username password (some opts)).1 = none ∧
        newClientCalls (NewClient lib host port username password (some opts)).2 = []) := by
  refine ⟨?_, ?_, ?_⟩
  · intro hproxy hauth
    have hev := configureProxy_events lib
      ⟨host, port, opts.Protocol == "https", false, opts.Timeout⟩ opts
    unfold NewClient
    simp only [Option.getD_some]
    by_cases hp : opts.HTTPProxy ≠ "" ∨ opts.HTTPSProxy ≠ ""
    · simp only [hp, if_true]
      rcases hc : configureProxy lib ⟨host, port, opts.Protocol == "https", false, opts.Timeout⟩
          opts with ⟨r, evs⟩
      rw [hc] at hproxy hev
      cases r with
      | error err => exact absurd rfl (hproxy err)
      | ok t =>
        simp only [hauth, if_false, errorOf, handleOf, true_and]
        exact newClientCalls_of_effects_nil _ hev
    · simp only [hp, if_false, hauth, errorOf, handleOf, newClientCalls, and_self]
  · intro hauth x
    unfold NewClient
    simp only [Option.getD_some]
    have hne1 : ∀ e : String, "proxy configuration failed: " ++ e ≠
        "unsupported auth type: " ++ x := by
      intro e h
      have h2 := congrArg (fun s => s.data.head?) h
      simp at h2
    have hne2 : ∀ e : String, "failed to create WinRM client: " ++ e ≠
        "unsupported auth type: " ++ x := by
      intro e h
      have h2 := congrArg (fun s => s.data.head?) h
      simp at h2
    by_cases hp : opts.HTTPProxy ≠ "" ∨ opts.HTTPSProxy ≠ ""
    · simp only [hp, if_true]
      rcases configureProxy lib ⟨host, port, opts.Protocol == "https", false, opts.Timeout⟩
          opts with ⟨r, evs⟩
      cases r with
      | error err =>
        simp only [errorOf, ne_eq, Option.some.injEq]
        exact hne1 err
      | ok t =>
        simp only [hauth, if_true]
        cases lib.newClient ⟨host, port, opts.Protocol == "https", false, opts.Timeout⟩
            username password with
        | error err =>
          simp only [errorOf, ne_eq, Option.some.injEq]
          exact hne2 err
        | ok cl => simp [errorOf]
    · simp only [hp, if_false, hauth, if_true]
      cases lib.newClient ⟨host, port, opts.Protocol == "https", false, opts.Timeout⟩
          username password with
      | error err =>
        simp only [errorOf, ne_eq, Option.some.injEq]
        exact hne2 err
      | ok cl => simp [errorOf]
  · intro err hb hu hparse
    have hp : opts.HTTPProxy ≠ "" ∨ opts.HTTPSProxy ≠ "" := by
      by_cases hs : (opts.Protocol == "https") = true
      · rw [if_pos hs] at hu
        exact Or.inr hu
      · rw [if_neg hs] at hu
        exact Or.inl hu
    have hc : configureProxy lib ⟨host, port, opts.Protocol == "https", false, opts.Timeout⟩
        opts = (.error ("invalid proxy URL: " ++ err), []) := by
      unfold configureProxy
      simp only [hb, Bool.false_eq_true, if_false]
      rw [if_pos hu, hparse]
    unfold NewClient
    simp only [Option.getD_some, hp, if_true, hc]
    exact ⟨rfl, rfl, rfl⟩

/-- Witness of C7 as amended: `telnet` without a proxy, `NTLM`, and `telnet` with a proxy
URL that does not parse. -/
theorem unsupported_auth_after_proxy_witness :
    (errorOf (NewClient stubLib "target" 5986 "u" "p" (some { AuthType := "telnet" })).1 =
        some ("unsupported auth type: " ++ "telnet") ∧
      handleOf (NewClient stubLib "target" 5986 "u" "p" (some { AuthType := "telnet" })).1
        = none ∧
      newClientCalls (NewClient stubLib "target" 5986 "u" "p"
        (some { AuthType := "telnet" })).2 = []) ∧
    (∀ x, errorOf (NewClient stubLib "target" 5986 "u" "p" (some { AuthType := "NTLM" })).1 ≠
      some ("unsupported auth type: " ++ x)) ∧
    (errorOf (NewClient stubLib "target" 5985 "u" "p"
        (some { Protocol := "http", AuthType := "telnet", HTTPProxy := "://proxy" })).1 =
        some ("proxy configuration failed: " ++
          ("invalid proxy URL: " ++ "parse \"://proxy\": missing protocol scheme")) ∧
      handleOf (NewClient stubLib "target" 5985 "u" "p"
        (some { Protocol := "http", AuthType := "telnet", HTTPProxy := "://proxy" })).1
        = none ∧
      newClientCalls (NewClient stubLib "target" 5985 "u" "p"
        (some { Protocol := "http", AuthType := "telnet", HTTPProxy := "://proxy" })).2 = []) :=
  ⟨(unsupported_auth_after_proxy stubLib "target" 5986 "u" "p" { AuthType := "telnet" }).1
      (fun err => by simp [configureProxy, shouldBypassProxy]) (by decide),
   (unsupported_auth_after_proxy stubLib "target" 5986 "u" "p" { AuthType := "NTLM" }).2.1
      (by decide),
   (unsupported_auth_after_proxy stubLib "target" 5985 "u" "p"
      { Protocol := "http", AuthType := "telnet", HTTPProxy := "://proxy" }).2.2
      "parse \"://proxy\": missing protocol scheme" (by decide) (by decide) (by rfl)⟩

/-- Counterexample to C7 as stated: with auth type `telnet` and a proxy URL that does not
parse, `NewClient` fails with the proxy configuration error, not with the
unsupported-auth-type error. -/
theorem unsupported_auth_masked_by_proxy_error :
    errorOf (NewClient stubLib "target" 5985 "u" "p"
      (some { Protocol := "http", AuthType := "telnet", HTTPProxy := "://proxy" })).1 =
      some "proxy configuration failed: invalid proxy URL: parse \"://proxy\": missing protocol scheme" ∧
    errorOf (NewClient stubLib "target" 5985 "u" "p"
      (some { Protocol := "http", AuthType := "telnet", HTTPProxy := "://proxy" })).1 ≠
      some "unsupported auth type: telnet" := by
  decide

/-- The handle inside the client that `NewClient` returns is what the external constructor
gives for the endpoint and the credentials alone. -/
theorem NewClient_handle {H U : Type} (lib : Lib H U) (host : String) (port : Int)
    (username password : String) (opts : Options) :
    handleOf (NewClient lib host port username password (some opts)).1 = none ∨
    handleOf (NewClient lib host port username password (some opts)).1 =
      (lib.newClient ⟨host, port, opts.Protocol == "https", false, opts.Timeout⟩
        username password).toOption := by
  unfold NewClient
  simp only [Option.getD_some]
  by_cases hauth : lib.ToLower opts.AuthType = "ntlm" ∨ lib.ToLower opts.AuthType = "kerberos"
  · by_cases hp : opts.HTTPProxy ≠ "" ∨ opts.HTTPSProxy ≠ ""
    · simp only [hp, if_true]
      rcases configureProxy lib ⟨host, port, opts.Protocol == "https", false, opts.Timeout⟩
          opts with ⟨r, evs⟩
      cases r with
      | error err => exact Or.inl rfl
      | ok t =>
        simp only [hauth, if_true]
        cases lib.newClient ⟨host, port, opts.Protocol == "https", false, opts.Timeout⟩
            username password with
        | error err => exact Or.inl rfl
        | ok cl => exact Or.inr rfl
    · simp only [hp, if_false, hauth, if_true]
      cases lib.newClient ⟨host, port, opts.Protocol == "https", false, opts.Timeout⟩
          username password with
      | error err => exact Or.inl rfl
      | ok cl => exact Or.inr rfl
  · by_cases hp : opts.HTTPProxy ≠ "" ∨ opts.HTTPSProxy ≠ ""
    · simp only [hp, if_true]
      rcases configureProxy lib ⟨host, port, opts.Protocol == "https", false, opts.Timeout⟩
          opts with ⟨r, evs⟩
      cases r with
      | error err => exact Or.inl rfl
      | ok t => simp only [hauth, if_false]; exact Or.inl rfl
    · simp only [hp, if_false, hauth]; exact Or.inl rfl

/-- C8, the code at the failing input (plain-HTTP target `target`, `HTTP_PROXY` set to
`http://proxy:3128`, empty no-proxy list): `configureProxy` parses the URL and returns a
transport with that proxy, but the client `NewClient` returns holds the handle built from
the endpoint and the credentials only, the same handle as without any proxy setting. -/
theorem proxy_transport_is_discarded :
    (configureProxy stubLib ⟨"target", 5985, false, false, 0⟩
        { Protocol := "http", AuthType := "ntlm", HTTPProxy := "http://proxy:3128" }
      ).1.toOption.map (fun t => t.Proxy) = some (some "http://proxy:3128") ∧
    handleOf (NewClient stubLib "target" 5985 "u" "p"
        (some { Protocol := "http", AuthType := "ntlm", HTTPProxy := "http://proxy:3128" })).1 =
      some (⟨"target", 5985, false, false, 0⟩, "u", "p") ∧
    handleOf (NewClient stubLib "target" 5985 "u" "p"
        (some { Protocol := "http", AuthType := "ntlm", HTTPProxy := "http://proxy:3128" })).1 =
      handleOf (NewClient stubLib "target" 5985 "u" "p"
        (some { Protocol := "http", AuthType := "ntlm" })).1 := by
  decide

/-! ## Configuration and entry point -/

theorem parseConfig_required (toLower : String → String) (env : String → String)
    (h : env "PLUGIN_HOST" = "" ∨ env "PLUGIN_USERNAME" = "" ∨ env "PLUGIN_PASSWORD" = "") :
    ∃ err, parseConfig toLower env = .error err := by
  unfold parseConfig
  by_cases h1 : env "PLUGIN_HOST" = ""
  · simp only [h1, if_true]
    exact ⟨_, rfl⟩
  · by_cases h2 : env "PLUGIN_USERNAME" = ""
    · simp only [h1, h2, if_true, if_false]
      exact ⟨_, rfl⟩
    · have h3 : env "PLUGIN_PASSWORD" = "" := by tauto
      simp only [h1, h2, h3, if_true, if_false]
      exact ⟨_, rfl⟩

/-- The payload fields of a parsed configuration are the three payload variables. -/
theorem parseConfig_payload (toLower : String → String) (env : String → String) (cfg : Config)
    (h : parseConfig toLower env = .ok cfg) :
    cfg.Command = env "PLUGIN_COMMAND" ∧ cfg.ScriptPath = env "PLUGIN_SCRIPT_PATH" ∧
      cfg.ScriptContent = env "PLUGIN_SCRIPT_CONTENT" := by
  unfold parseConfig at h
  lift_lets at h
  extract_lets c0 c1 c2 c3 c4 c5 c6 c7 c8 c9 c10 c11 c12 c13 c14 c15 c16 c17 at h
  by_cases h1 : c1.Host = ""
  · rw [if_pos h1] at h; cases h
  rw [if_neg h1] at h
  by_cases h2 : c2.Username = ""
  · rw [if_pos h2] at h; cases h
  rw [if_neg h2] at h
  by_cases h3 : c3.Password = ""
  · rw [if_pos h3] at h; cases h
  rw [if_neg h3] at h
  injection h with h
  subst h
  have e5 : c5.Command = c4.Command ∧ c5.ScriptPath = c4.ScriptPath ∧
      c5.ScriptContent = c4.ScriptContent := by
    simp only [c5]; split <;> (try split) <;> exact ⟨rfl, rfl, rfl⟩
  have e6 : c6.Command = c5.Command ∧ c6.ScriptPath = c5.ScriptPath ∧
      c6.ScriptContent = c5.ScriptContent := by
    simp only [c6]; split <;> exact ⟨rfl, rfl, rfl⟩
  have e7 : c7.Command = c6.Command ∧ c7.ScriptPath = c6.ScriptPath ∧
      c7.ScriptContent = c6.ScriptContent := by
    simp only [c7]; split <;> exact ⟨rfl, rfl, rfl⟩
  have e8 : c8.Command = c7.Command ∧ c8.ScriptPath = c7.ScriptPath ∧
      c8.ScriptContent = c7.ScriptContent := by
    simp only [c8]; split <;> (try split) <;> exact ⟨rfl, rfl, rfl⟩
  have e9 : c9.Command = c8.Command ∧ c9.ScriptPath = c8.ScriptPath ∧
      c9.ScriptContent = c8.ScriptContent := by
    simp only [c9]; split <;> exact ⟨rfl, rfl, rfl⟩
  have e10 : c10.Command = c9.Command ∧ c10.ScriptPath = c9.ScriptPath ∧
      c10.ScriptContent = c9.ScriptContent := by
    simp only [c10]; split <;> (try split) <;> exact ⟨rfl, rfl, rfl⟩
  have e11 : c11.Command = c10.Command ∧ c11.ScriptPath = c10.ScriptPath ∧
      c11.ScriptContent = c10.ScriptContent := by
    simp only [c11]; split <;> (try split) <;> exact ⟨rfl, rfl, rfl⟩
  have e12 : c12.Command = c11.Command ∧ c12.ScriptPath = c11.ScriptPath ∧
      c12.ScriptContent = c11.ScriptContent := by
    simp only [c12]; split <;> exact ⟨rfl, rfl, rfl⟩
  have e13 : c13.Command = c12.Command ∧ c13.ScriptPath = c12.ScriptPath ∧
      c13.ScriptContent = c12.ScriptContent := by
    simp only [c13]; split <;> exact ⟨rfl, rfl, rfl⟩
  have e14 : c14.Command = c13.Command ∧ c14.ScriptPath = c13.ScriptPath ∧
      c14.ScriptContent = c13.ScriptContent := by
    simp only [c14]; split <;> exact ⟨rfl, rfl, rfl⟩
  have e15 : c15.Command = c14.Command ∧ c15.ScriptPath = c14.ScriptPath ∧
      c15.ScriptContent = c14.ScriptContent := by
    simp only [c15]; split <;> exact ⟨rfl, rfl, rfl⟩
  have e16 : c16.Command = c15.Command ∧ c16.ScriptPath = c15.ScriptPath ∧
      c16.ScriptContent = c15.ScriptContent := by
    simp only [c16]; split <;> exact ⟨rfl, rfl, rfl⟩
  refine ⟨?_, ?_, ?_⟩
  · show c16.Command = _
    rw [e16.1, e15.1, e14.1, e13.1, e12.1, e11.1, e10.1, e9.1, e8.1, e7.1, e6.1, e5.1]
  · show c16.ScriptPath = _
    rw [e16.2.1, e15.2.1, e14.2.1, e13.2.1, e12.2.1, e11.2.1, e10.2.1, e9.2.1, e8.2.1, e7.2.1, e6.2.1, e5.2.1]
  · show c16.ScriptContent = _
    rw [e16.2.2, e15.2.2, e14.2.2, e13.2.2, e12.2.2, e11.2.2, e10.2.2, e9.2.2, e8.2.2, e7.2.2, e6.2.2, e5.2.2]

theorem NewClient_runCalls {H U : Type} (lib : Lib H U) (host : String) (port : Int)
    (username password : String) (opts : Options) :
    runCalls (NewClient lib host port username password (some opts)).2 = [] := by
  have hev := configureProxy_events lib
    ⟨host, port, opts.Protocol == "https", false, opts.Timeout⟩ opts
  unfold NewClient
  simp only [Option.getD_some]
  by_cases hp : opts.HTTPProxy ≠ "" ∨ opts.HTTPSProxy ≠ ""
  · simp only [hp, if_true]
    rcases hc : configureProxy lib ⟨host, port, opts.Protocol == "https", false, opts.Timeout⟩
        opts with ⟨r, evs⟩
    rw [hc] at hev
    have hr : runCalls evs = [] := by rw [← runCalls_effects, hev]; rfl
    cases r with
    | error err => exact hr
    | ok t =>
      simp only
      split
      · split <;> simp [runCalls_append, hr, runCalls]
      · exact hr
  · simp only [hp, if_false]
    split
    · split <;> simp [runCalls]
    · rfl

/-- With the three required variables set `parseConfig` returns a configuration. -/
theorem parseConfig_ok (toLower : String → String) (env : String → String)
    (h1 : env "PLUGIN_HOST" ≠ "") (h2 : env "PLUGIN_USERNAME" ≠ "")
    (h3 : env "PLUGIN_PASSWORD" ≠ "") :
    ∃ cfg, parseConfig toLower env = .ok cfg := by
  unfold parseConfig
  lift_lets
  extract_lets c0 c1 c2 c3 c4 c5 c6 c7 c8 c9 c10 c11 c12 c13 c14 c15 c16 c17
  have e1 : ¬ c1.Host = "" := h1
  have e2 : ¬ c2.Username = "" := h2
  have e3 : ¬ c3.Password = "" := h3
  rw [if_neg e1, if_neg e2, if_neg e3]
  exact ⟨_, rfl⟩

/-- When `NewClient` returns a client, the external constructor has been called once, with
the endpoint and the credentials. -/
theorem NewClient_calls_of_handle {H U : Type} (lib : Lib H U) (host : String) (port : Int)
    (username password : String) (opts : Options)
    (h : handleOf (NewClient lib host port username password (some opts)).1 ≠ none) :
    newClientCalls (NewClient lib host port username password (some opts)).2 =
      [(⟨host, port, opts.Protocol == "https", false, opts.Timeout⟩, username, password)] := by
  have hev := configureProxy_events lib
    ⟨host, port, opts.Protocol == "https", false, opts.Timeout⟩ opts
  unfold NewClient at h ⊢
  simp only [Option.getD_some] at h ⊢
  by_cases hauth : lib.ToLower opts.AuthType = "ntlm" ∨ lib.ToLower opts.AuthType = "kerberos"
  · by_cases hp : opts.HTTPProxy ≠ "" ∨ opts.HTTPSProxy ≠ ""
    · simp only [hp, if_true] at h ⊢
      rcases hc : configureProxy lib ⟨host, port, opts.Protocol == "https", false, opts.Timeout⟩
          opts with ⟨r, evs⟩
      rw [hc] at hev h
      have hr : newClientCalls evs = [] := newClientCalls_of_effects_nil _ hev
      cases r with
      | error err => exact absurd rfl h
      | ok t =>
        simp only [hauth, if_true] at h ⊢
        cases lib.newClient ⟨host, port, opts.Protocol == "https", false, opts.Timeout⟩
            username password with
        | error err => simp [newClientCalls_append, hr, newClientCalls]
        | ok cl => simp [newClientCalls_append, hr, newClientCalls]
    · simp only [hp, if_false, hauth, if_true] at h ⊢
      cases lib.newClient ⟨host, port, opts.Protocol == "https", false, opts.Timeout⟩
          username password with
      | error err => simp [newClientCalls]
      | ok cl => simp [newClientCalls]
  · by_cases hp : opts.HTTPProxy ≠ "" ∨ opts.HTTPSProxy ≠ ""
    · simp only [hp, if_true] at h
      rcases hc : configureProxy lib ⟨host, port, opts.Protocol == "https", false, opts.Timeout⟩
          opts with ⟨r, evs⟩
      rw [hc] at h
      cases r with
      | error err => exact absurd rfl h
      | ok t =>
        simp only [hauth, if_false] at h
        exact absurd rfl h
    · simp only [hp, if_false, hauth] at h
      exact absurd rfl h

/-- C10, as amended: when `PLUGIN_HOST`, `PLUGIN_USERNAME` or `PLUGIN_PASSWORD` is missing or
empty the process prints a configuration error and exits with code 1 without a call of the
client constructor or of the session; when no payload variable is set it exits with code 1
without a session run call; and when the three required variables are set and no payload
variable is, `main` has gone through `NewClient` first: the events are the two start-up
logger calls, then the events of `NewClient` on the parsed configuration, then either the
report of its failure or the report of the missing payload, and if `NewClient` returned a
client the external constructor has been called with the endpoint and the credentials. -/
theorem config_error_exits_one {H U σ : Type} (lib : Lib H U) (runPS : RunPS H σ)
    (env : String → String) (fuel : Nat) (s : σ) :
    ((env "PLUGIN_HOST" = "" ∨ env "PLUGIN_USERNAME" = "" ∨ env "PLUGIN_PASSWORD" = "") →
      ∃ x err, main lib runPS env fuel s = some x ∧ x.code = 1 ∧
        x.events = [Event.printErr ("Configuration error: " ++ err ++ "\n")] ∧
        newClientCalls x.events = [] ∧ runCalls x.events = []) ∧
    ((env "PLUGIN_COMMAND" = "" ∧ env "PLUGIN_SCRIPT_PATH" = "" ∧
        env "PLUGIN_SCRIPT_CONTENT" = "") →
      ∃ x, main lib runPS env fuel s = some x ∧ x.code = 1 ∧ runCalls x.events = []) ∧
    ((env "PLUGIN_HOST" ≠ "" ∧ env "PLUGIN_USERNAME" ≠ "" ∧ env "PLUGIN_PASSWORD" ≠ "") →
      (env "PLUGIN_COMMAND" = "" ∧ env "PLUGIN_SCRIPT_PATH" = "" ∧
        env "PLUGIN_SCRIPT_CONTENT" = "") →
      ∃ cfg x, parseConfig lib.ToLower env = .ok cfg ∧
        main lib runPS env fuel s = some x ∧ x.code = 1 ∧
        x.events = startEvents cfg ++
          (NewClient lib cfg.Host cfg.Port cfg.Username cfg.Password
            (some (clientOptions cfg))).2 ++
          noPayloadEvents (NewClient lib cfg.Host cfg.Port cfg.Username cfg.Password
            (some (clientOptions cfg))).1 ∧
        (handleOf (NewClient lib cfg.Host cfg.Port cfg.Username cfg.Password
            (some (clientOptions cfg))).1 ≠ none →
          newClientCalls x.events =
            [(⟨cfg.Host, cfg.Port, cfg.Protocol == "https", false, cfg.Timeout⟩,
              cfg.Username, cfg.Password)])) := by
  refine ⟨?_, ?_, ?_⟩
  · intro h
    obtain ⟨err, herr⟩ := parseConfig_required lib.ToLower env h
    refine ⟨⟨1, s, [Event.printErr ("Configuration error: " ++ err ++ "\n")]⟩, err, ?_,
      rfl, rfl, rfl, rfl⟩
    unfold main
    rw [herr]
  · rintro ⟨hc, hp, hs⟩
    cases hcfg : parseConfig lib.ToLower env with
    | error err =>
      refine ⟨⟨1, s, [Event.printErr ("Configuration error: " ++ err ++ "\n")]⟩, ?_, rfl, rfl⟩
      unfold main
      rw [hcfg]
    | ok cfg =>
      obtain ⟨e1, e2, e3⟩ := parseConfig_payload lib.ToLower env cfg hcfg
      rw [hc] at e1
      rw [hp] at e2
      rw [hs] at e3
      have hrun := NewClient_runCalls lib cfg.Host cfg.Port cfg.Username cfg.Password
        { Protocol := cfg.Protocol, AuthType := cfg.AuthType, Timeout := cfg.Timeout,
          MaxRetries := cfg.MaxRetries, RetryInterval := cfg.RetryInterval,
          HTTPProxy := cfg.HTTPProxy, HTTPSProxy := cfg.HTTPSProxy, NoProxy := cfg.NoProxy }
      unfold main
      rw [hcfg]
      simp only [e1, e2, e3, ne_eq, not_true_eq_false, if_false]
      split
      · exact ⟨_, rfl, rfl, by simp [runCalls_append, hrun, runCalls]⟩
      · exact ⟨_, rfl, rfl, by simp [runCalls_append, hrun, runCalls]⟩
  · rintro ⟨h1, h2, h3⟩ ⟨hc, hp, hs⟩
    obtain ⟨cfg, hcfg⟩ := parseConfig_ok lib.ToLower env h1 h2 h3
    obtain ⟨e1, e2, e3⟩ := parseConfig_payload lib.ToLower env cfg hcfg
    rw [hc] at e1
    rw [hp] at e2
    rw [hs] at e3
    have hcalls := NewClient_calls_of_handle lib cfg.Host cfg.Port cfg.Username cfg.Password
      (clientOptions cfg)
    cases hn : (NewClient lib cfg.Host cfg.Port cfg.Username cfg.Password
        (some (clientOptions cfg))).1 with
    | error err =>
      refine ⟨cfg, ⟨1, s, startEvents cfg ++
        (NewClient lib cfg.Host cfg.Port cfg.Username cfg.Password
          (some (clientOptions cfg))).2 ++
        [Event.log .error "Failed to create WinRM client: %v" [.err err]]⟩, hcfg, ?_, rfl, ?_, ?_⟩
      · unfold main
        rw [hcfg]
        simp only [clientOptions] at hn
        simp only [hn]
        rfl
      · rw [hn]
        rfl
      · intro hh
        rw [hn] at hh
        exact absurd rfl hh
    | ok client =>
      rw [hn] at hcalls
      refine ⟨cfg, ⟨1, s, startEvents cfg ++
        (NewClient lib cfg.Host cfg.Port cfg.Username cfg.Password
          (some (clientOptions cfg))).2 ++
        [Event.log .error "No command, script file, or script content specified" [],
         Event.log .info
           "Use PLUGIN_COMMAND, PLUGIN_SCRIPT_PATH, or PLUGIN_SCRIPT_CONTENT" []]⟩,
        hcfg, ?_, rfl, ?_, ?_⟩
      · unfold main
        rw [hcfg]
        simp only [clientOptions] at hn
        simp only [hn, e1, e2, e3, ne_eq, not_true_eq_false, if_false]
        rfl
      · rw [hn]
        rfl
      · intro hh
        rw [hn] at hh
        have hcl := hcalls hh
        simp only [newClientCalls_append, hcl]
        rfl

/-- Witness of C10 as amended: an environment without a password, one without a payload,
and the latter again for the passage through `NewClient`. -/
theorem config_error_exits_one_witness :
    (∃ x err, main stubLib (failingRun) (envOf [("PLUGIN_HOST", "h"), ("PLUGIN_USERNAME", "u")])
        3 () = some x ∧ x.code = 1 ∧
      x.events = [Event.printErr ("Configuration error: " ++ err ++ "\n")] ∧
      newClientCalls x.events = [] ∧ runCalls x.events = []) ∧
    (∃ x, main stubLib (failingRun) (envOf [("PLUGIN_HOST", "h"), ("PLUGIN_USERNAME", "u"),
        ("PLUGIN_PASSWORD", "p")]) 3 () = some x ∧ x.code = 1 ∧ runCalls x.events = []) ∧
    (∃ cfg x, parseConfig stubLib.ToLower (envOf [("PLUGIN_HOST", "h"),
          ("PLUGIN_USERNAME", "u"), ("PLUGIN_PASSWORD", "p")]) = .ok cfg ∧
        main stubLib (failingRun) (envOf [("PLUGIN_HOST", "h"), ("PLUGIN_USERNAME", "u"),
          ("PLUGIN_PASSWORD", "p")]) 3 () = some x ∧ x.code = 1 ∧
        x.events = startEvents cfg ++
          (NewClient stubLib cfg.Host cfg.Port cfg.Username cfg.Password
            (some (clientOptions cfg))).2 ++
          noPayloadEvents (NewClient stubLib cfg.Host cfg.Port cfg.Username cfg.Password
            (some (clientOptions cfg))).1 ∧
        (handleOf (NewClient stubLib cfg.Host cfg.Port cfg.Username cfg.Password
            (some (clientOptions cfg))).1 ≠ none →
          newClientCalls x.events =
            [(⟨cfg.Host, cfg.Port, cfg.Protocol == "https", false, cfg.Timeout⟩,
              cfg.Username, cfg.Password)])) :=
  ⟨(config_error_exits_one stubLib failingRun
      (envOf [("PLUGIN_HOST", "h"), ("PLUGIN_USERNAME", "u")]) 3 ()).1 (by decide),
   (config_error_exits_one stubLib failingRun
      (envOf [("PLUGIN_HOST", "h"), ("PLUGIN_USERNAME", "u"), ("PLUGIN_PASSWORD", "p")])
      3 ()).2.1 (by decide),
   (config_error_exits_one stubLib failingRun
      (envOf [("PLUGIN_HOST", "h"), ("PLUGIN_USERNAME", "u"), ("PLUGIN_PASSWORD", "p")])
      3 ()).2.2 (by decide) (by decide)⟩

/-- Counterexample to C10 as stated: with host, user name and password set and no payload
variable, the process exits with code 1 only after the external client constructor has
been called. -/
theorem no_payload_exits_after_new_client :
    (main stubLib (failingRun) (envOf [("PLUGIN_HOST", "h"), ("PLUGIN_USERNAME", "u"),
        ("PLUGIN_PASSWORD", "p")]) 3 ()).map (fun x => (x.code, newClientCalls x.events)) =
      some (1, [(⟨"h", 5986, true, false, 30000000000⟩, "u", "p")]) := by
  decide

end WinRM
